import Mathlib

/-!
# mary-bot: economy and inventory transaction engine

A shallow embedding of `database/items.go` and `database/use.go`.

Modelling conventions.

* Go's `int` and `int64` are 64-bit integers.  The products `Buy` and `Sell`
  compute from the price and the amount, and the negations next to them, wrap
  around: they are modelled by `wrap64` applied to the product over `Int`.  The
  sums the store computes (`$inc`) and the increments of a quantity by a given
  amount are exact over `Int`, and the statements on them are about executions in
  which the sum stays in the 64-bit range.
* The MongoDB collection `Users` is a list of documents; `FindOne` returns the
  first document matching a filter and `UpdateOne` rewrites the first document
  matching a filter.  The per-guild databases are merged into one list, a
  document living in the database named by its `guild_id`.  Store failures and
  timeouts are not modelled: a store call succeeds.
* A `time.Time` is an integer number of milliseconds (the resolution of a BSON
  datetime); each reading of the clock is an argument of the operation.
* Every draw from `math/rand` is an argument of the operation; a `float64` is
  modelled by an exact rational.
* Each entry point returns its message as a value of `Outcome`, whose text is
  given by `Outcome.message`, together with the resulting store.
-/

namespace MaryBot

/-! ## Data model (`items.go`, lines 17-55) -/

structure ShopItem where
  Name : String
  Price : Int
  Description : String
deriving DecidableEq

structure Item where
  Name : String
  Quantity : Int
deriving DecidableEq

structure User where
  UserID : Int
  GuildID : Int
  Balance : Int
  LastUse : Int
  MarriedTo : Int
  Inventory : List Item
deriving DecidableEq

/-- The global `items` as declared (`items.go`, lines 24-31).  The shield emblem
is the two code points U+1F6E1 U+FE0F. -/
def items : List ShopItem :=
  [ ⟨"🔫 Gun", 2000, "It's a gun... what do you expect?"⟩,
    ⟨"🚗 Car", 50000, "Run people over with this car!"⟩,
    ⟨"🍫 Chocolate", 50, "It won't help against the zombies, but everyone loves chocolate!"⟩,
    ⟨"💍 Ring", 1000, "Congratulations! Who's the lucky person?"⟩,
    ⟨"🏹 Bow", 400, "It might not be as strong as a gun, but it's cheaper!"⟩,
    ⟨"🛡️ Shield", 5000, "Protect yourself from the attackers!"⟩ ]

/-! ## Strings and the two regular expressions -/

/-- Go's `strings.ToLower`, on ASCII letters; every other code point is kept.
This is `strings.ToLower` exactly on the strings without a cased letter outside
ASCII: the catalogue names (`Buy` strips every other character first, and the
emblems and U+FE0F have no case) and the bare identifiers of the data model
(`bareNames`).  Go folds cased letters outside ASCII as well (U+0130 to `i`). -/
def ToLower (s : String) : String := String.mk (s.data.map Char.toLower)

/-- Character class `[a-zA-Z0-9]`. -/
def isAlnum (c : Char) : Bool :=
  (97 ≤ c.toNat && c.toNat ≤ 122) || (65 ≤ c.toNat && c.toNat ≤ 90) ||
    (48 ≤ c.toNat && c.toNat ≤ 57)

/-- Character class `\s` of Go's regexp: tab, line feed, form feed, carriage
return and space. -/
def isSpace (c : Char) : Bool :=
  c.toNat == 9 || c.toNat == 10 || c.toNat == 12 || c.toNat == 13 || c.toNat == 32

/-- Unicode general category So (Symbol, other), on the pictograph blocks the
catalogue emblems are drawn from: U+1F300..U+1F3FA, U+1F400..U+1F5FF and
U+1F680..U+1F6C5, U+1F6E0..U+1F6EC.  The variation selector U+FE0F has category
Mn and is not in the class. -/
def isSo (c : Char) : Bool :=
  (0x1F300 ≤ c.toNat && c.toNat ≤ 0x1F3FA) || (0x1F400 ≤ c.toNat && c.toNat ≤ 0x1F5FF) ||
    (0x1F680 ≤ c.toNat && c.toNat ≤ 0x1F6C5) || (0x1F6E0 ≤ c.toNat && c.toNat ≤ 0x1F6EC)

/-- The replacement `regexp.MustCompile("[^a-zA-Z0-9]+").ReplaceAllString(s, "")`
of `Buy` (`items.go`, line 165): every run of characters outside the class is
deleted. -/
def stripNonAlnum (s : String) : String := String.mk (s.data.filter isAlnum)

/-- The replacement `regexp.MustCompile("^\p{So}|\s").ReplaceAllString(s, "")` of
`Sell` and `Give` (`items.go`, lines 289 and 458): one So character at the very
start of the text is deleted, and every white space character. -/
def stripEmblem (s : String) : String :=
  match s.data with
  | [] => ""
  | c :: cs =>
    if isSo c then String.mk (cs.filter (fun x => !isSpace x))
    else String.mk ((c :: cs).filter (fun x => !isSpace x))

/-- The price loop shared by `Buy`, `Sell` and `Give`: `itemPrice` starts at 0 and
takes the price of the first catalogue entry whose normalised name equals
`item`. -/
def lookupPrice (norm : String → String) (cat : List ShopItem) (item : String) : Int :=
  match cat.find? (fun it => ToLower (norm it.Name) == item) with
  | some it => it.Price
  | none => 0

/-- Price loop of `Buy` (`items.go`, lines 160-170). -/
def buyPrice (cat : List ShopItem) (item : String) : Int := lookupPrice stripNonAlnum cat item

/-- Price loop of `Sell` (`items.go`, lines 284-294). -/
def sellPrice (cat : List ShopItem) (item : String) : Int := lookupPrice stripEmblem cat item

/-- Price loop of `Give` (`items.go`, lines 455-463). -/
def givePrice (cat : List ShopItem) (item : String) : Int := lookupPrice stripEmblem cat item

/-! ## Outcomes -/

inductive Outcome where
  | storeError
  | itemDoesNotExist
  | notEnoughMoney
  | bought (amount : Int) (item : String) (cost : Int)
  | noItems
  | notEnoughToSell
  | sold (amount : Int) (item : String) (total : Int)
  | recipientNotPlaying
  | notEnoughToGive
  | notInInventoryGive
  | gave (amount : Int) (item : String) (pingedUser : Int)
  | notEnoughToUse
  | notInInventoryUse
  | cooldownActive
  | goldenTicket
  | ateChocolate
  | targetNotPlaying
  | carNoMoney (pingedUser : Int)
  | carTook (pingedUser : Int)
  | gunBlocked (pingedUser : Int)
  | gunRobbed (pingedUser : Int) (robbedAmount : Int)
  | bowShot (pingedUser : Int) (lostAmount : Int)
  | bowTook (pingedUser : Int) (robbedAmount : Int)
  | targetAlreadyMarried
  | selfAlreadyMarried
  | officiallyMarried (pingedUser : Int)
  | proposed (pingedUser : Int)
  | noMessage
  | notMarried
  | notMarriedToThatUser
  | officiallyDivorced (pingedUser : Int)
  | filedForDivorce (pingedUser : Int)
deriving DecidableEq

/-- Decimal rendering of `strconv.Itoa` and of the verb `%d`. -/
def Itoa (n : Int) : String := toString n

/-- The text each entry point returns. -/
def Outcome.message : Outcome → String
  | .storeError => "Error occurred while selecting from database! "
  | .itemDoesNotExist => "That item doesn't exist!"
  | .notEnoughMoney => "You don't have enough money to buy this item!"
  | .bought amount item cost =>
    "You have successfully bought " ++ Itoa amount ++ "X " ++ item ++ " for " ++ Itoa cost ++ " coins!"
  | .noItems => "You do not have any items in your inventory!"
  | .notEnoughToSell => "You don't have enough of that item to sell!"
  | .sold amount item total =>
    "You have successfully sold " ++ Itoa amount ++ "X " ++ item ++ " for " ++ Itoa total ++ " coins!"
  | .recipientNotPlaying => "The user you are trying to give an item to is not playing the game!"
  | .notEnoughToGive => "You do not have enough of this item to give!"
  | .notInInventoryGive => "You do not have this item in your inventory!"
  | .gave amount item pingedUser =>
    "You gave " ++ Itoa amount ++ "X " ++ item ++ " to <@" ++ Itoa pingedUser ++ ">!"
  | .notEnoughToUse => "You do not have enough of that item in your inventory to use!"
  | .notInInventoryUse => "You do not have that item in your inventory!"
  | .cooldownActive => "You must wait a minute between uses!"
  | .goldenTicket => "You found a golden ticket! You won 1000000 coins!"
  | .ateChocolate => "You ate some chocolate. Yum!"
  | .targetNotPlaying => "That user is not currently playing the game!"
  | .carNoMoney p =>
    "You ran over <@" ++ Itoa p ++ "> with your car, but they didn't have enough money to pay you!"
  | .carTook p => "You ran over <@" ++ Itoa p ++ "> with your car and took 1000 coins from them!"
  | .gunBlocked p =>
    "You shot <@" ++ Itoa p ++ "> with your gun, but they had a shield and it blocked the bullet!"
  | .gunRobbed p n =>
    "You held up <@" ++ Itoa p ++ "> at gunpoint and robbed " ++ Itoa n ++ " coins from them!"
  | .bowShot p n =>
    "You tried to rob <@" ++ Itoa p ++ "> with a bow, but they had a gun and shot you! You lost "
      ++ Itoa n ++ " coins!"
  | .bowTook p n => "You shot <@" ++ Itoa p ++ "> and took " ++ Itoa n ++ " coins from them!"
  | .targetAlreadyMarried => "That user is already married!"
  | .selfAlreadyMarried => "You are already married!"
  | .officiallyMarried p =>
    "🎉 Congratulations! You and <@" ++ Itoa p ++ "> are now officially married! 🎉"
  | .proposed p =>
    "You proposed to <@" ++ Itoa p
      ++ "> with a ring! They now have to accept your proposal by using their own ring!"
  | .noMessage => ""
  | .notMarried => "You are not married!"
  | .notMarriedToThatUser => "You are not married to that user!"
  | .officiallyDivorced p =>
    "The papers have gone through. You and <@" ++ Itoa p ++ "> are now officially divorced..."
  | .filedForDivorce p =>
    "You filed for divorce with <@" ++ Itoa p
      ++ ">! They now have to sign the papers to finalize the divorce."

/-! ## The record store -/

abbrev Store := List User

/-- The filter `{user_id: userID, guild_id: guildID}`. -/
def userFilter (guildID userID : Int) (d : User) : Bool :=
  d.UserID == userID && d.GuildID == guildID

/-- First document matching the filter. -/
def FindOne (store : Store) (filter : User → Bool) : Option User := store.find? filter

/-- Rewrites the first document matching the filter; no document matching, the
collection is left as it is. -/
def UpdateOne (filter : User → Bool) (update : User → User) : Store → Store
  | [] => []
  | d :: ds => if filter d then update d :: ds else d :: UpdateOne filter update ds

/-- The filter condition `inventory: {$elemMatch: {name: item}}`. -/
def hasStack (inv : List Item) (item : String) : Bool := inv.any (fun s => s.Name == item)

/-- The update `$inc: {"inventory.$.quantity": amount}`: the positional operator
designates the first array element matched by the filter. -/
def incFirst (item : String) (amount : Int) : List Item → List Item
  | [] => []
  | s :: rest =>
    if s.Name == item then { s with Quantity := s.Quantity + amount } :: rest
    else s :: incFirst item amount rest

/-- Modelled from the spec: `IsPlaying` is defined in a file of the repository that
is not among the sources.  Every entry point calls it first; it returns the empty
message after making sure the acting player has a record, creating a zero-balance,
empty-inventory record when there is none. -/
def IsPlaying (store : Store) (guildID userID : Int) : Store :=
  match FindOne store (userFilter guildID userID) with
  | some _ => store
  | none => store ++ [⟨userID, guildID, 0, 0, 0, []⟩]

/-! ## Go slices

An inventory decoded from the store is a slice whose backing array holds exactly
its elements.  The statements `s[i].Quantity -= k` and
`s = append(s[:i], s[i+1:]...)` work on the backing array in place; a second slice
header taken before them (`pingedUserInventory` in the gun branch of `Use`) keeps
its length and sees the rewritten cells. -/

/-- Cells after `s[i].Quantity += d`. -/
def addQuantityAt : List Item → Nat → Int → List Item
  | [], _, _ => []
  | it :: rest, 0, d => { it with Quantity := it.Quantity + d } :: rest
  | it :: rest, i + 1, d => it :: addQuantityAt rest i d

/-- Value of `s[i].Quantity` (0 outside the slice, where Go would not get). -/
def quantityAt (s : List Item) (i : Nat) : Int :=
  match s[i]? with
  | some it => it.Quantity
  | none => 0

/-- Cells of the backing array, over the old length, after
`append(s[:i], s[i+1:]...)`: the cells behind `i` move down one place and the last
cell keeps its value. -/
def spliceCells (s : List Item) (i : Nat) : List Item :=
  s.take i ++ s.drop (i + 1) ++ s.drop (s.length - 1)

/-- The slice `append(s[:i], s[i+1:]...)` returns: the first `len(s) - 1` cells. -/
def splice (s : List Item) (i : Nat) : List Item := (spliceCells s i).take (s.length - 1)

/-- The statements `s[i].Quantity -= k; if s[i].Quantity == 0 { s = append(s[:i],
s[i+1:]...) }` (`items.go` 485-488; `use.go` 103-106, 332-337, 418-421): the value
of `s` afterwards. -/
def takeAt (s : List Item) (i : Nat) (k : Int) : List Item :=
  let s1 := addQuantityAt s i (-k)
  if quantityAt s1 i == 0 then splice s1 i else s1

/-- The same statements seen through a slice header copied beforehand
(`use.go` 217, 228-233, 242): the old length over the rewritten cells. -/
def takeAtAliased (s : List Item) (i : Nat) (k : Int) : List Item :=
  let s1 := addQuantityAt s i (-k)
  if quantityAt s1 i == 0 then spliceCells s1 i else s1

/-- Index of the first stack with the given name (`use.go` 218-224, 301-307;
`items.go` 522-528), `none` standing for -1. -/
def firstIndex (name : String) : List Item → Option Nat
  | [] => none
  | it :: rest =>
    if it.Name == name then some 0
    else (firstIndex name rest).map (fun i => i + 1)

/-- Index of the last stack with the given name: the loop without `break` of
`Divorce` (`use.go` 512-517), `none` standing for -1. -/
def lastIndex (name : String) : List Item → Nat → Option Nat → Option Nat
  | [], _, acc => acc
  | it :: rest, i, acc =>
    if it.Name == name then lastIndex name rest (i + 1) (some i)
    else lastIndex name rest (i + 1) acc

/-! ## Transaction engine (`items.go`) -/

/-- Value of a Go `int` or `int64` expression whose exact value is `x`: the
arithmetic wraps around modulo 2^64 into the range from -2^63 to 2^63 - 1. -/
def wrap64 (x : Int) : Int :=
  (x + 9223372036854775808) % 18446744073709551616 - 9223372036854775808

/-- Embedding of `Buy` (`items.go`, lines 111-242).  The guard compares with
`int64(itemPrice) * int64(amount)` (line 178), the two updates increment the balance
by `-itemPrice * amount` (lines 200, 232) and the message reports
`itemPrice * amount` (line 241): three products of Go integers. -/
def Buy (cat : List ShopItem) (store : Store) (guildID userID : Int) (item : String)
    (amount : Int) : Outcome × Store :=
  let store := IsPlaying store guildID userID
  match FindOne store (userFilter guildID userID) with
  | none => (.storeError, store)
  | some user =>
    let balance := user.Balance
    let itemPrice := buyPrice cat item
    if itemPrice == 0 then (.itemDoesNotExist, store)
    else if balance < wrap64 (itemPrice * amount) then (.notEnoughMoney, store)
    else
      let store := UpdateOne
        (fun d => userFilter guildID userID d && hasStack d.Inventory item)
        (fun d => { d with
          Inventory := incFirst item amount d.Inventory
          Balance := d.Balance + wrap64 (-itemPrice * amount) })
        store
      let store := UpdateOne
        (fun d => userFilter guildID userID d && !hasStack d.Inventory item)
        (fun d => { d with
          Inventory := d.Inventory ++ [⟨item, amount⟩]
          Balance := d.Balance + wrap64 (-itemPrice * amount) })
        store
      (.bought amount item (wrap64 (itemPrice * amount)), store)


/-- Embedding of `Sell` (`items.go`, lines 244-345).  The update decrements the
quantity by `-amount` and increments the balance by `itemPrice * amount` (lines
332, 335), which the message reports as well (line 344): Go integers. -/
def Sell (cat : List ShopItem) (store : Store) (guildID userID : Int) (item : String)
    (amount : Int) : Outcome × Store :=
  let store := IsPlaying store guildID userID
  match FindOne store (userFilter guildID userID) with
  | none => (.storeError, store)
  | some user =>
    if user.Inventory.length == 0 then (.noItems, store)
    else
      let itemPrice := sellPrice cat item
      if itemPrice == 0 then (.itemDoesNotExist, store)
      else
        let itemAmount :=
          match user.Inventory.find? (fun s => ToLower s.Name == item) with
          | some s => s.Quantity
          | none => 0
        if itemAmount < amount then (.notEnoughToSell, store)
        else
          let itemPrice := Int.tdiv itemPrice 2
          let store := UpdateOne
            (fun d => userFilter guildID userID d && hasStack d.Inventory item)
            (fun d => { d with
              Inventory := incFirst item (wrap64 (-amount)) d.Inventory
              Balance := d.Balance + wrap64 (itemPrice * amount) })
            store
          (.sold amount item (wrap64 (itemPrice * amount)), store)

/-- The inventory loop of `Give` (`items.go`, lines 468-479), which has no `break`:
`none` is the early return "not enough", otherwise the last matching index
(`itemName` is `item` exactly when an index was set). -/
def giveLoop (item : String) (amount : Int) :
    List Item → Nat → Option Nat → Option (Option Nat)
  | [], _, itemIndex => some itemIndex
  | it :: rest, i, itemIndex =>
    if it.Name == item then
      if it.Quantity < amount then none
      else giveLoop item amount rest (i + 1) (some i)
    else giveLoop item amount rest (i + 1) itemIndex

/-- The update `UpdateOne(ctx, filter, update, SetUpsert(true))` of `Give`
(`items.go`, lines 512-514): the matching document gets the inventory, or a new
document with the key and the inventory is inserted. -/
def UpsertInventory (guildID userID : Int) (inv : List Item) (store : Store) : Store :=
  match FindOne store (userFilter guildID userID) with
  | some _ => UpdateOne (userFilter guildID userID) (fun d => { d with Inventory := inv }) store
  | none => store ++ [⟨userID, guildID, 0, 0, 0, inv⟩]

/-- Embedding of `Give` (`items.go`, lines 412-544). -/
def Give (cat : List ShopItem) (store : Store) (guildID userID : Int) (item : String)
    (amount : Int) (pingedUser : Int) : Outcome × Store :=
  let store := IsPlaying store guildID userID
  match FindOne store (userFilter guildID pingedUser) with
  | none => (.recipientNotPlaying, store)
  | some _ =>
    match FindOne store (userFilter guildID userID) with
    | none => (.storeError, store)
    | some user =>
      let itemPrice := givePrice cat item
      if itemPrice == 0 then (.itemDoesNotExist, store)
      else
        match giveLoop item amount user.Inventory 0 none with
        | none => (.notEnoughToGive, store)
        | some none => (.notInInventoryGive, store)
        | some (some itemIndex) =>
          if item == "" then (.notInInventoryGive, store)
          else
            let inventory := takeAt user.Inventory itemIndex amount
            let store := UpdateOne (userFilter guildID userID)
              (fun d => { d with Inventory := inventory }) store
            match FindOne store (userFilter guildID pingedUser) with
            | none =>
              (.gave amount item pingedUser,
                UpsertInventory guildID pingedUser [⟨item, amount⟩] store)
            | some pingedUserStruct =>
              let inventory :=
                match firstIndex item pingedUserStruct.Inventory with
                | none => pingedUserStruct.Inventory ++ [⟨item, amount⟩]
                | some itemIndex => addQuantityAt pingedUserStruct.Inventory itemIndex amount
              let store := UpdateOne (userFilter guildID pingedUser)
                (fun d => { d with Inventory := inventory }) store
              (.gave amount item pingedUser, store)

/-- Insertion of one entry into a list ascending in price. -/
def insertByPrice (x : ShopItem) : List ShopItem → List ShopItem
  | [] => [x]
  | y :: ys => if x.Price < y.Price then x :: y :: ys else y :: insertByPrice x ys

/-- The call `sort.Slice(items, less)` with `less` comparing prices (`items.go`,
lines 60-62): the entries in ascending order of price.  `sort.Slice` is not
stable; entries of equal price, of which the catalogue has none, are kept here in
their order. -/
def sortByPrice : List ShopItem → List ShopItem
  | [] => []
  | x :: xs => insertByPrice x (sortByPrice xs)

/-- Embedding of `Shop` (`items.go`, lines 58-80): the catalogue sorted by price,
the page index after the bounds check, and the slice `items[start:end]`; `none`
where Go panics (division by zero, slice bounds out of range). -/
def Shop (cat : List ShopItem) (pageSize currentPage : Int) :
    Option (List ShopItem × Int × List ShopItem) :=
  let sorted := sortByPrice cat
  let len : Int := sorted.length
  if pageSize == 0 then none
  else
    let currentPage :=
      if currentPage < 0 then 0
      else if currentPage ≥ Int.tdiv len pageSize then Int.tdiv len pageSize - 1
      else currentPage
    let start := currentPage * pageSize
    let stop := if start + pageSize > len then len else start + pageSize
    if 0 ≤ start ∧ start ≤ stop ∧ stop ≤ len then
      some (sorted, currentPage, (sorted.drop start.toNat).take (stop - start).toNat)
    else none

/-! ## Effect resolver (`use.go`) -/

/-- The draws `Use` takes from `math/rand`, in the order of the calls. -/
structure Draws where
  Intn100 : Nat
  Float1 : ℚ
  Float2 : ℚ

/-- Conversion `int64(x)` of a float: truncation towards zero. -/
def truncToInt (q : ℚ) : Int := Int.tdiv q.num q.den

/-- The ownership loop of `Use` (`use.go`, lines 60-69), which has no `break`:
`none` is the early return "not enough", otherwise the last matching index. -/
def useLoop (item : String) : List Item → Nat → Option Nat → Option (Option Nat)
  | [], _, itemIndex => some itemIndex
  | it :: rest, i, itemIndex =>
    if it.Name == item then
      if it.Quantity < 1 then none
      else useLoop item rest (i + 1) (some i)
    else useLoop item rest (i + 1) itemIndex

/-- Case "chocolate" (`use.go`, lines 128-152). -/
def useChocolate (rnd : Draws) (store : Store) (guildID userID : Int) (user : User) :
    Outcome × Store :=
  if rnd.Intn100 < 1 then
    (.goldenTicket,
      UpdateOne (userFilter guildID userID)
        (fun d => { d with Balance := user.Balance + 1000000 }) store)
  else (.ateChocolate, store)

/-- Case "car" (`use.go`, lines 154-202). -/
def useCar (store : Store) (guildID userID pingedUserID : Int) : Outcome × Store :=
  match FindOne store (userFilter guildID pingedUserID) with
  | none => (.targetNotPlaying, store)
  | some pingedUser =>
    if pingedUser.Balance < 1000 then (.carNoMoney pingedUserID, store)
    else
      let store := UpdateOne (userFilter guildID userID)
        (fun d => { d with Balance := d.Balance + 1000 }) store
      let store := UpdateOne (userFilter guildID pingedUserID)
        (fun d => { d with Balance := d.Balance + -1000 }) store
      (.carTook pingedUserID, store)

/-- Case "gun" (`use.go`, lines 204-285).  The inventory written back in the shield
branch is `pingedUserInventory`, the header copied at line 217. -/
def useGun (rnd : Draws) (store : Store) (guildID userID pingedUserID : Int) :
    Outcome × Store :=
  match FindOne store (userFilter guildID pingedUserID) with
  | none => (.targetNotPlaying, store)
  | some pingedUser =>
    match firstIndex "shield" pingedUser.Inventory with
    | some shieldIndex =>
      let pingedUserInventory := takeAtAliased pingedUser.Inventory shieldIndex 1
      (.gunBlocked pingedUserID,
        UpdateOne (userFilter guildID pingedUserID)
          (fun d => { d with Inventory := pingedUserInventory }) store)
    | none =>
      let robbedAmount :=
        truncToInt ((pingedUser.Balance : ℚ) * (rnd.Float1 * (1 / 2) + 1 / 10))
      let store := UpdateOne (userFilter guildID pingedUserID)
        (fun d => { d with Balance := d.Balance + -robbedAmount }) store
      let store := UpdateOne (userFilter guildID userID)
        (fun d => { d with Balance := d.Balance + robbedAmount }) store
      (.gunRobbed pingedUserID robbedAmount, store)

/-- Case "bow" (`use.go`, lines 287-390). -/
def useBow (rnd : Draws) (store : Store) (guildID userID pingedUserID : Int) (user : User) :
    Outcome × Store :=
  match FindOne store (userFilter guildID pingedUserID) with
  | none => (.targetNotPlaying, store)
  | some pingedUser =>
    let robbedAmount :=
      truncToInt ((pingedUser.Balance : ℚ) * (rnd.Float1 * (1 / 10) + 2 / 10))
    let lostAmount := truncToInt ((user.Balance : ℚ) * (rnd.Float2 * (1 / 10) + 1 / 10))
    match firstIndex "gun" pingedUser.Inventory with
    | some gunIndex =>
      let store := UpdateOne (userFilter guildID userID)
        (fun d => { d with Balance := d.Balance + -lostAmount }) store
      let inventory := takeAt pingedUser.Inventory gunIndex 1
      let store := UpdateOne (userFilter guildID pingedUserID)
        (fun d => { d with Inventory := inventory }) store
      (.bowShot pingedUserID lostAmount, store)
    | none =>
      let store := UpdateOne (userFilter guildID pingedUserID)
        (fun d => { d with Balance := d.Balance + -robbedAmount }) store
      let store := UpdateOne (userFilter guildID userID)
        (fun d => { d with Balance := d.Balance + robbedAmount }) store
      (.bowTook pingedUserID robbedAmount, store)

/-- Case "ring" (`use.go`, lines 392-445). -/
def useRing (store : Store) (guildID userID pingedUserID : Int) (user : User)
    (itemIndex : Nat) : Outcome × Store :=
  match FindOne store (userFilter guildID pingedUserID) with
  | none => (.targetNotPlaying, store)
  | some pingedUser =>
    if pingedUser.MarriedTo != 0 && pingedUser.MarriedTo != userID then
      (.targetAlreadyMarried, store)
    else
      let officiallyMarried := pingedUser.MarriedTo == userID
      if user.MarriedTo != 0 then (.selfAlreadyMarried, store)
      else
        let inventory := takeAt user.Inventory itemIndex 1
        let store := UpdateOne (userFilter guildID userID)
          (fun d => { d with Inventory := inventory, MarriedTo := pingedUserID }) store
        if officiallyMarried then (.officiallyMarried pingedUserID, store)
        else (.proposed pingedUserID, store)

/-- Embedding of `Use` (`use.go`, lines 19-447).  `IsOwner` is `commands.IsOwner`,
defined outside the sources; `now` is the clock read by `time.Since` (line 77),
`stamp` the clock read by `time.Now` (line 90). -/
def Use (IsOwner : Int → Bool) (now stamp : Int) (rnd : Draws) (store : Store)
    (guildID userID : Int) (item : String) (pingedUserID : Int) : Outcome × Store :=
  let store := IsPlaying store guildID userID
  match FindOne store (userFilter guildID userID) with
  | none => (.storeError, store)
  | some user =>
    if user.Inventory.length == 0 then (.noItems, store)
    else
      match useLoop item user.Inventory 0 none with
      | none => (.notEnoughToUse, store)
      | some none => (.notInInventoryUse, store)
      | some (some itemIndex) =>
        if now - user.LastUse < 60000 && IsOwner userID == false then (.cooldownActive, store)
        else
          let store := UpdateOne (userFilter guildID userID)
            (fun d => { d with LastUse := stamp }) store
          let user : User :=
            if item != "car" && item != "ring" then
              { user with Inventory := takeAt user.Inventory itemIndex 1 }
            else user
          let store :=
            if item != "car" && item != "ring" then
              UpdateOne (userFilter guildID userID)
                (fun d => { d with Inventory := user.Inventory }) store
            else store
          if item == "chocolate" then useChocolate rnd store guildID userID user
          else if item == "car" then useCar store guildID userID pingedUserID
          else if item == "gun" then useGun rnd store guildID userID pingedUserID
          else if item == "bow" then useBow rnd store guildID userID pingedUserID user
          else if item == "ring" then useRing store guildID userID pingedUserID user itemIndex
          else (.noMessage, store)

/-- Embedding of `Divorce` (`use.go`, lines 450-548). -/
def Divorce (store : Store) (guildID userID pingedUserID : Int) : Outcome × Store :=
  let store := IsPlaying store guildID userID
  match FindOne store (userFilter guildID userID) with
  | none => (.storeError, store)
  | some user =>
    if user.MarriedTo == 0 then (.notMarried, store)
    else
      match FindOne store (userFilter guildID pingedUserID) with
      | none => (.targetNotPlaying, store)
      | some pingedUser =>
        if user.MarriedTo != pingedUserID then (.notMarriedToThatUser, store)
        else
          let officiallyDivorced := pingedUser.MarriedTo == 0
          let inventory :=
            match lastIndex "ring" user.Inventory 0 none with
            | none => user.Inventory ++ [⟨"ring", 1⟩]
            | some itemIndex => addQuantityAt user.Inventory itemIndex 1
          let store := UpdateOne (userFilter guildID userID)
            (fun d => { d with Inventory := inventory, MarriedTo := 0 }) store
          if officiallyDivorced then (.officiallyDivorced pingedUserID, store)
          else (.filedForDivorce pingedUserID, store)

/-! ## Observations used by the statements -/

/-- Quantity a player holds of an item: the quantities of the stacks stored under
that name, added up (0 when there is no such stack; the quantity of the stack when
names are not repeated). -/
def heldQty (inv : List Item) (item : String) : Int :=
  ((inv.filter (fun s => s.Name == item)).map Item.Quantity).sum

/-- The stacks stored under any other name, in order. -/
def otherStacks (inv : List Item) (item : String) : List Item :=
  inv.filter (fun s => !(s.Name == item))

/-- Stack names in lower case, as `Buy`, `Give` and `Divorce` store them (the bare
identifiers of the data model). -/
def lowerCaseNames (inv : List Item) : Prop := ∀ st ∈ inv, ToLower st.Name = st.Name

/-- Every stack has a quantity above zero. -/
def allPositive (inv : List Item) : Prop := ∀ st ∈ inv, 0 < st.Quantity

/-- The player holds at least one of the item: there is a stack of that name, and
no stack of that name is below 1. -/
def holdsOne (inv : List Item) (item : String) : Prop :=
  (∃ st ∈ inv, st.Name = item) ∧ ∀ st ∈ inv, st.Name = item → 1 ≤ st.Quantity

instance decidableLowerCaseNames (inv : List Item) : Decidable (lowerCaseNames inv) := by
  unfold lowerCaseNames
  infer_instance

instance decidableAllPositive (inv : List Item) : Decidable (allPositive inv) := by
  unfold allPositive
  infer_instance

instance decidableHoldsOne (inv : List Item) (item : String) : Decidable (holdsOne inv item) := by
  unfold holdsOne
  infer_instance

/-- The cooldown guard of `Use` lets the call through (`use.go`, line 77): a minute
has passed since `LastUse`, or the player is on the bypass list. -/
def cooldownPassed (IsOwner : Int → Bool) (now userID : Int) (usr : User) : Prop :=
  ¬ (now - usr.LastUse < 60000 ∧ IsOwner userID = false)

instance decidableCooldownPassed (IsOwner : Int → Bool) (now userID : Int) (usr : User) :
    Decidable (cooldownPassed IsOwner now userID usr) := by
  unfold cooldownPassed
  infer_instance

/-- The store once `Use` has written the stamp (`use.go`, lines 82-93). -/
def afterStamp (stamp guildID userID : Int) (s : Store) : Store :=
  UpdateOne (userFilter guildID userID) (fun d => { d with LastUse := stamp }) s

/-- The store once `Use` has written the stamp and taken one of the item at the
index found by the ownership loop (`use.go`, lines 101-118): the store the effect
of chocolate, gun and bow starts from. -/
def afterTake (stamp guildID userID : Int) (inv : List Item) (idx : Nat) (s : Store) : Store :=
  UpdateOne (userFilter guildID userID) (fun d => { d with Inventory := takeAt inv idx 1 })
    (afterStamp stamp guildID userID s)

/-- The identifier has an upper-case letter `A`-`Z`. -/
def hasUpper (item : String) : Bool :=
  item.data.any (fun c => decide (65 ≤ c.toNat) && decide (c.toNat ≤ 90))

/-- The page index after the bounds check of `Shop` (`items.go`, lines 65-69),
`len` being `len(items)`. -/
def clampedPage (len pageSize currentPage : Int) : Int :=
  if currentPage < 0 then 0
  else if currentPage ≥ Int.tdiv len pageSize then Int.tdiv len pageSize - 1
  else currentPage

/-- The bounds `start` and `end` computed by `getPageItems` (`items.go`, lines
73-77) for the page index left by the bounds check. -/
def pageBounds (len pageSize currentPage : Int) : Int × Int :=
  let start := currentPage * pageSize
  let stop := if start + pageSize > len then len else start + pageSize
  (start, stop)

/-- The exact value lies strictly between -2^63 and 2^63: the Go expression and its
negation are computed without wrapping around. -/
def fits64 (x : Int) : Prop := -9223372036854775808 < x ∧ x < 9223372036854775808

instance decidableFits64 (x : Int) : Decidable (fits64 x) := by
  unfold fits64
  infer_instance

/-- Stack names are bare identifiers, as the data model has them: ASCII characters
only, none of them an upper-case letter.  On such a name `strings.ToLower` is the
identity, in Go as in `ToLower`. -/
def bareNames (inv : List Item) : Prop :=
  ∀ st ∈ inv, ∀ c ∈ st.Name.data, c.toNat < 128 ∧ ¬ (65 ≤ c.toNat ∧ c.toNat ≤ 90)

instance decidableBareNames (inv : List Item) : Decidable (bareNames inv) := by
  unfold bareNames
  infer_instance

/-- The validation failures of `Buy`, `Sell` and `Give`. -/
def validationFailure (o : Outcome) : Bool :=
  o == .itemDoesNotExist || o == .notEnoughMoney || o == .noItems || o == .notEnoughToSell
    || o == .notEnoughToGive || o == .notInInventoryGive || o == .recipientNotPlaying

/-- The returns of `Use` that come before the cooldown guard is passed. -/
def rejectedBeforeStamp (o : Outcome) : Bool :=
  o == .storeError || o == .noItems || o == .notEnoughToUse || o == .notInInventoryUse
    || o == .cooldownActive

/-! ## Lemmas on the store -/

theorem findOne_updateOne (g u g' u' : Int) (cond : User → Bool) (f : User → User)
    (hf : ∀ d, (f d).UserID = d.UserID ∧ (f d).GuildID = d.GuildID) (s : Store) :
    FindOne (UpdateOne (fun d => userFilter g u d && cond d) f s) (userFilter g' u') =
      if g' = g ∧ u' = u then
        (FindOne s (userFilter g u)).map (fun d => if cond d then f d else d)
      else FindOne s (userFilter g' u') := by
  induction s with
  | nil => simp [UpdateOne, FindOne]
  | cons d ds ih =>
    simp only [FindOne] at ih
    by_cases hk : userFilter g u d = true
    · by_cases hc : cond d = true
      · by_cases hgu : g' = g ∧ u' = u
        · obtain ⟨rfl, rfl⟩ := hgu
          have hfk : userFilter g' u' (f d) = true := by
            simpa [userFilter, (hf d).1, (hf d).2] using hk
          simp [UpdateOne, FindOne, hk, hc, hfk, List.find?]
        · have hn : userFilter g' u' d = false := by
            simp only [userFilter, Bool.and_eq_true, beq_iff_eq] at hk
            simp only [userFilter, Bool.and_eq_false_iff, beq_eq_false_iff_ne]
            by_contra hcon
            push_neg at hcon
            exact hgu ⟨by rw [← hcon.2, hk.2], by rw [← hcon.1, hk.1]⟩
          have hfn : userFilter g' u' (f d) = false := by
            simpa [userFilter, (hf d).1, (hf d).2] using hn
          simp [UpdateOne, FindOne, hk, hc, hgu, hn, hfn, List.find?]
      · by_cases hgu : g' = g ∧ u' = u
        · obtain ⟨rfl, rfl⟩ := hgu
          simp [UpdateOne, FindOne, hk, hc, List.find?]
        · have hn : userFilter g' u' d = false := by
            simp only [userFilter, Bool.and_eq_true, beq_iff_eq] at hk
            simp only [userFilter, Bool.and_eq_false_iff, beq_eq_false_iff_ne]
            by_contra hcon
            push_neg at hcon
            exact hgu ⟨by rw [← hcon.2, hk.2], by rw [← hcon.1, hk.1]⟩
          simp only [UpdateOne, hk, hc, Bool.and_false, Bool.false_eq_true, if_false,
            FindOne, List.find?, hn, hgu]
          simpa [hgu] using ih
    · by_cases hgu : g' = g ∧ u' = u
      · obtain ⟨rfl, rfl⟩ := hgu
        simp only [UpdateOne, hk, Bool.false_and, Bool.false_eq_true, if_false, FindOne,
          List.find?, and_self, if_true]
        simpa using ih
      · by_cases hn : userFilter g' u' d = true
        · simp [UpdateOne, FindOne, hk, hn, hgu, List.find?]
        · simp only [UpdateOne, hk, Bool.false_and, Bool.false_eq_true, if_false, FindOne,
            List.find?, hn, hgu]
          simpa [hgu] using ih

theorem userFilter_and_true (g u : Int) :
    (fun d => userFilter g u d && (fun _ => true) d) = userFilter g u := by
  funext d
  simp

theorem findOne_updateOne_key (g u g' u' : Int) (f : User → User)
    (hf : ∀ d, (f d).UserID = d.UserID ∧ (f d).GuildID = d.GuildID) (s : Store) :
    FindOne (UpdateOne (userFilter g u) f s) (userFilter g' u') =
      if g' = g ∧ u' = u then (FindOne s (userFilter g u)).map f
      else FindOne s (userFilter g' u') := by
  have h := findOne_updateOne g u g' u' (fun _ => true) f hf s
  rw [userFilter_and_true] at h
  simpa using h

theorem mem_of_findOne (s : Store) (p : User → Bool) (d : User) (h : FindOne s p = some d) :
    d ∈ s := List.mem_of_find?_eq_some h

theorem findOne_IsPlaying (s : Store) (g u : Int) :
    ∃ usr, FindOne (IsPlaying s g u) (userFilter g u) = some usr ∧
      (usr ∈ s ∨ usr = ⟨u, g, 0, 0, 0, []⟩) := by
  cases h : FindOne s (userFilter g u) with
  | some usr => exact ⟨usr, by simp [IsPlaying, h], Or.inl (mem_of_findOne _ _ _ h)⟩
  | none =>
    refine ⟨⟨u, g, 0, 0, 0, []⟩, ?_, Or.inr rfl⟩
    simp only [FindOne] at h
    simp [IsPlaying, FindOne, h, List.find?_append, userFilter]

theorem findOne_IsPlaying_of_found (s : Store) (g u g' u' : Int) (r : User)
    (h : FindOne s (userFilter g' u') = some r) :
    FindOne (IsPlaying s g u) (userFilter g' u') = some r := by
  cases hu : FindOne s (userFilter g u) with
  | some usr => simpa [IsPlaying, hu] using h
  | none =>
    simp only [IsPlaying, hu]
    simp only [FindOne] at h ⊢
    simp [List.find?_append, h]

theorem lookupPrice_nonneg (norm : String → String) (cat : List ShopItem) (item : String)
    (hpos : ∀ it ∈ cat, 0 < it.Price) : 0 ≤ lookupPrice norm cat item := by
  unfold lookupPrice
  cases h : cat.find? (fun it => ToLower (norm it.Name) == item) with
  | none => simp
  | some it => exact le_of_lt (hpos it (List.mem_of_find?_eq_some h))

theorem IsPlaying_of_found (s : Store) (g u : Int) (usr : User)
    (h : FindOne s (userFilter g u) = some usr) : IsPlaying s g u = s := by
  simp [IsPlaying, h]

/-! ## Lemmas on inventories -/

theorem heldQty_incFirst (item : String) (amount : Int) (inv : List Item)
    (h : hasStack inv item = true) :
    heldQty (incFirst item amount inv) item = heldQty inv item + amount := by
  induction inv with
  | nil => simp [hasStack] at h
  | cons s rest ih =>
    by_cases hs : s.Name = item
    · simp [incFirst, heldQty, hs, List.filter_cons]
      ring
    · have hb : (s.Name == item) = false := by simpa using hs
      have h' : hasStack rest item = true := by
        simpa [hasStack, hs] using h
      have := ih h'
      simp only [heldQty] at this
      simp [incFirst, heldQty, hb, List.filter_cons, this]

theorem hasStack_incFirst (item : String) (amount : Int) (inv : List Item) :
    hasStack (incFirst item amount inv) item = hasStack inv item := by
  induction inv with
  | nil => simp [incFirst]
  | cons s rest ih =>
    by_cases hs : s.Name = item
    · simp [incFirst, hasStack, hs]
    · have hb : (s.Name == item) = false := by simpa using hs
      simp only [hasStack] at ih
      simp [incFirst, hasStack, hb, ih]

theorem otherStacks_incFirst (item : String) (amount : Int) (inv : List Item) :
    otherStacks (incFirst item amount inv) item = otherStacks inv item := by
  induction inv with
  | nil => simp [incFirst]
  | cons s rest ih =>
    by_cases hs : s.Name = item
    · simp [incFirst, otherStacks, hs, List.filter_cons]
    · have hb : (s.Name == item) = false := by simpa using hs
      simp only [otherStacks] at ih
      simp [incFirst, otherStacks, hb, List.filter_cons, ih]

theorem heldQty_push (item : String) (amount : Int) (inv : List Item) :
    heldQty (inv ++ [⟨item, amount⟩]) item = heldQty inv item + amount := by
  simp [heldQty, List.filter_append, List.filter]

theorem otherStacks_push (item : String) (amount : Int) (inv : List Item) :
    otherStacks (inv ++ [⟨item, amount⟩]) item = otherStacks inv item := by
  simp [otherStacks, List.filter_append, List.filter]

/-! ## Buy -/

theorem wrap64_of_fits (x : Int) (h : fits64 x) : wrap64 x = x := by
  unfold fits64 at h
  unfold wrap64
  omega

theorem wrap64_neg_of_fits (x : Int) (h : fits64 x) : wrap64 (-x) = -x := by
  unfold fits64 at h
  unfold wrap64
  omega

/-- C1, as stated, fails on the code when the cost leaves the 64-bit range: for
184467440737096 cars the product 50000 * 184467440737096 wraps around to a number
below zero, the balance check passes with balance 0, and the increment
`-itemPrice * amount`, which wraps around as well, leaves the balance at
9223372036854751616 instead of 0 - 50000 * 184467440737096. -/
theorem buy_overflow_counterexample :
    Buy items [⟨7, 1, 0, 0, 0, []⟩] 1 7 "car" 184467440737096
      = (Outcome.bought 184467440737096 "car" (-9223372036854751616),
          [⟨7, 1, 9223372036854751616, 0, 0, [⟨"car", 184467440737096⟩]⟩]) ∧
    buyPrice items "car" = 50000 ∧
    (9223372036854751616 : Int) ≠ 0 - buyPrice items "car" * 184467440737096 := by
  decide

/-- C1 (conservation of Buy), amended to the costs within the 64-bit range: when
`Buy` returns its success message for a player with a record, the quantity held of
the item has gone up by the amount (from 0 when there was no stack), the stacks of
every other item are as they were, and the stored balance has gone up by the Go
value of `-itemPrice * amount`; when price times amount lies strictly between -2^63
and 2^63, the stored balance has gone down by price times amount. -/
theorem buy_conservation (cat : List ShopItem) (s : Store) (g u : Int) (item : String)
    (amount : Int) (usr : User) (a c : Int) (i : String)
    (hu : FindOne s (userFilter g u) = some usr)
    (hb : (Buy cat s g u item amount).1 = Outcome.bought a i c) :
    ∃ usr1, FindOne (Buy cat s g u item amount).2 (userFilter g u) = some usr1 ∧
      usr1.Balance = usr.Balance + wrap64 (-buyPrice cat item * amount) ∧
      (fits64 (buyPrice cat item * amount) →
        usr1.Balance = usr.Balance - buyPrice cat item * amount) ∧
      heldQty usr1.Inventory item = heldQty usr.Inventory item + amount ∧
      otherStacks usr1.Inventory item = otherStacks usr.Inventory item := by
  rw [Buy, IsPlaying_of_found s g u usr hu] at hb ⊢
  simp only [hu] at hb ⊢
  by_cases h0 : (buyPrice cat item == 0) = true
  · simp [h0] at hb
  by_cases h1 : usr.Balance < wrap64 (buyPrice cat item * amount)
  · simp [h0, h1] at hb
  simp only [h0, h1, Bool.false_eq_true, if_false]
  rw [findOne_updateOne, findOne_updateOne]
  · simp only [and_self, if_true, hu, Option.map_some']
    by_cases hs : hasStack usr.Inventory item = true
    · simp only [hs, if_true, hasStack_incFirst, Bool.not_true, Bool.false_eq_true, if_false]
      refine ⟨_, rfl, rfl, fun hfit => ?_, heldQty_incFirst item amount _ hs,
        otherStacks_incFirst item amount _⟩
      simp only
      rw [neg_mul, wrap64_neg_of_fits _ hfit]
      ring
    · simp only [hs, if_false, Bool.not_false, if_true, Bool.false_eq_true]
      refine ⟨_, rfl, rfl, fun hfit => ?_, heldQty_push item amount _,
        otherStacks_push item amount _⟩
      simp only
      rw [neg_mul, wrap64_neg_of_fits _ hfit]
      ring
  · exact fun d => ⟨rfl, rfl⟩
  · exact fun d => ⟨rfl, rfl⟩

/-- Witness for C1 as amended: with balance 2500, buying one gun at price 2000 leaves
balance 500 and the inventory holding exactly one gun. -/
theorem buy_conservation_witness :
    (Buy items [⟨7, 1, 2500, 0, 0, []⟩] 1 7 "gun" 1).2 = [⟨7, 1, 500, 0, 0, [⟨"gun", 1⟩]⟩] ∧
    fits64 (buyPrice items "gun" * 1) ∧
    ∃ usr1, FindOne (Buy items [⟨7, 1, 2500, 0, 0, []⟩] 1 7 "gun" 1).2 (userFilter 1 7)
        = some usr1 ∧
      usr1.Balance = 2500 + wrap64 (-buyPrice items "gun" * 1) ∧
      (fits64 (buyPrice items "gun" * 1) → usr1.Balance = 2500 - buyPrice items "gun" * 1) ∧
      heldQty usr1.Inventory "gun" = heldQty [] "gun" + 1 ∧
      otherStacks usr1.Inventory "gun" = otherStacks [] "gun" :=
  ⟨by decide, by decide, buy_conservation items [⟨7, 1, 2500, 0, 0, []⟩] 1 7 "gun" 1
    ⟨7, 1, 2500, 0, 0, []⟩ 1 2000 "gun" (by decide) (by decide)⟩

/-! ## Sell -/

theorem hasStack_of_find_lower (inv : List Item) (item : String) (st : Item)
    (hlow : lowerCaseNames inv)
    (h : inv.find? (fun s => ToLower s.Name == item) = some st) : hasStack inv item = true := by
  have hm := List.mem_of_find?_eq_some h
  have hp := List.find?_some h
  simp only [beq_iff_eq] at hp
  simp only [hasStack, List.any_eq_true, beq_iff_eq]
  exact ⟨st, hm, by rw [← hlow st hm, hp]⟩

theorem tdiv_two_eq (p : Int) (hp : 0 ≤ p) : Int.tdiv p 2 = p / 2 :=
  Int.tdiv_eq_ediv hp (by decide)

theorem toLower_of_not_upper (c : Char) (h : ¬ (65 ≤ c.toNat ∧ c.toNat ≤ 90)) :
    Char.toLower c = c := by
  unfold Char.toLower
  simp only
  split
  · rename_i h2
    exact absurd ⟨h2.1, h2.2⟩ h
  · rfl

theorem lowerCaseNames_of_bareNames (inv : List Item) (h : bareNames inv) :
    lowerCaseNames inv := by
  intro st hst
  unfold ToLower
  have hm : st.Name.data.map Char.toLower = st.Name.data := by
    conv_rhs => rw [← List.map_id st.Name.data]
    exact List.map_congr_left (fun c hc => toLower_of_not_upper c (h st hst c hc).2)
  rw [hm]

/-- C2, as stated, fails on the code at amount 0, at a negative amount and when the
credit leaves the 64-bit range: selling 0 guns succeeds with a credit of 0, which is
not below the Buy cost 0; selling -1 gun with no gun stack succeeds and leaves the
balance at 0 instead of 0 + 1000 * (-1); selling 368934881474192 cars out of a stack
of that size credits the product 25000 * 368934881474192 wrapped around, which is
-9223372036854751616. -/
theorem sell_asymmetry_counterexample :
    ((Sell items [⟨7, 1, 0, 0, 0, [⟨"gun", 1⟩]⟩] 1 7 "gun" 0).1 = Outcome.sold 0 "gun" 0 ∧
      1 < sellPrice items "gun" ∧
      ¬ (sellPrice items "gun" / 2 * 0 < sellPrice items "gun" * 0)) ∧
    (Sell items [⟨7, 1, 0, 0, 0, [⟨"car", 1⟩]⟩] 1 7 "gun" (-1)
        = (Outcome.sold (-1) "gun" (-1000), [⟨7, 1, 0, 0, 0, [⟨"car", 1⟩]⟩]) ∧
      (0 : Int) ≠ 0 + sellPrice items "gun" / 2 * (-1)) ∧
    (Sell items [⟨7, 1, 0, 0, 0, [⟨"car", 368934881474192⟩]⟩] 1 7 "car" 368934881474192
        = (Outcome.sold 368934881474192 "car" (-9223372036854751616),
            [⟨7, 1, -9223372036854751616, 0, 0, [⟨"car", 0⟩]⟩]) ∧
      (-9223372036854751616 : Int) ≠ 0 + sellPrice items "car" / 2 * 368934881474192) := by
  decide

/-- C2, amended to amounts above zero and to products within the 64-bit range: when
`Sell` returns its success message for an amount above zero, on a record whose
stack names are bare identifiers, the stored balance has gone up by the Go value of
`itemPrice * amount`, which is floor(P/2) times the amount when that product lies
strictly between -2^63 and 2^63, P being the catalogue price; when P > 1,
floor(P/2) times the amount is strictly below P times the amount, and when P times
the amount lies strictly between -2^63 and 2^63 as well, the credit computed is
strictly below the Go value of P times the amount. -/
theorem sell_credit (s : Store) (g u : Int) (item : String)
    (amount : Int) (usr : User) (a t : Int) (i : String)
    (hu : FindOne s (userFilter g u) = some usr)
    (hbare : bareNames usr.Inventory)
    (hamt : 0 < amount)
    (hs : (Sell items s g u item amount).1 = Outcome.sold a i t) :
    (∃ usr1, FindOne (Sell items s g u item amount).2 (userFilter g u) = some usr1 ∧
      usr1.Balance = usr.Balance + wrap64 (Int.tdiv (sellPrice items item) 2 * amount) ∧
      (fits64 (sellPrice items item / 2 * amount) →
        usr1.Balance = usr.Balance + sellPrice items item / 2 * amount)) ∧
    (1 < sellPrice items item →
      sellPrice items item / 2 * amount < sellPrice items item * amount) ∧
    (1 < sellPrice items item → fits64 (sellPrice items item * amount) →
      wrap64 (Int.tdiv (sellPrice items item) 2 * amount)
        < wrap64 (sellPrice items item * amount)) := by
  have hpos : ∀ it ∈ items, 0 < it.Price := by decide
  have hnn : 0 ≤ sellPrice items item := lookupPrice_nonneg stripEmblem items item hpos
  have hlow : lowerCaseNames usr.Inventory := lowerCaseNames_of_bareNames _ hbare
  have hlt : 1 < sellPrice items item →
      sellPrice items item / 2 * amount < sellPrice items item * amount := by
    intro hp
    have h2 : sellPrice items item / 2 < sellPrice items item := by omega
    exact mul_lt_mul_of_pos_right h2 hamt
  refine ⟨?_, hlt, ?_⟩
  · rw [Sell, IsPlaying_of_found s g u usr hu] at hs ⊢
    simp only [hu] at hs ⊢
    by_cases h0 : (usr.Inventory.length == 0) = true
    · simp [h0] at hs
    by_cases h1 : (sellPrice items item == 0) = true
    · simp [h0, h1] at hs
    cases hf : usr.Inventory.find? (fun s => ToLower s.Name == item) with
    | none =>
      have : ¬ ((0 : Int) < amount) := by
        intro _
        simp only [h0, h1, hf, Bool.false_eq_true, if_false] at hs
        by_cases h2 : (0 : Int) < amount
        · simp [h2] at hs
        · exact h2 hamt
      exact absurd hamt this
    | some st =>
      simp only [h0, h1, hf, Bool.false_eq_true, if_false] at hs ⊢
      by_cases h2 : st.Quantity < amount
      · simp [h2] at hs
      simp only [h2, if_false]
      rw [findOne_updateOne]
      · have hst := hasStack_of_find_lower usr.Inventory item st hlow hf
        simp only [and_self, if_true, hu, Option.map_some', hst]
        refine ⟨_, rfl, rfl, fun hfit => ?_⟩
        simp only
        rw [tdiv_two_eq (sellPrice items item) hnn, wrap64_of_fits _ hfit]
      · exact fun d => ⟨rfl, rfl⟩
  · intro hp hfit
    have h3 := hlt hp
    have h4 : 0 ≤ sellPrice items item / 2 * amount :=
      Int.mul_nonneg (Int.ediv_nonneg hnn (by decide)) (le_of_lt hamt)
    have hfit2 : fits64 (sellPrice items item / 2 * amount) := by
      unfold fits64 at hfit ⊢
      omega
    rw [tdiv_two_eq (sellPrice items item) hnn, wrap64_of_fits _ hfit, wrap64_of_fits _ hfit2]
    exact h3

/-- Witness for C2 as amended: one gun sold from a balance of 0 at price 2000. -/
theorem sell_credit_witness :
    fits64 (sellPrice items "gun" * 1) ∧
    (∃ usr1, FindOne (Sell items [⟨7, 1, 0, 0, 0, [⟨"gun", 1⟩]⟩] 1 7 "gun" 1).2 (userFilter 1 7)
        = some usr1 ∧
      usr1.Balance = 0 + wrap64 (Int.tdiv (sellPrice items "gun") 2 * 1) ∧
      (fits64 (sellPrice items "gun" / 2 * 1) →
        usr1.Balance = 0 + sellPrice items "gun" / 2 * 1)) ∧
    (1 < sellPrice items "gun" → sellPrice items "gun" / 2 * 1 < sellPrice items "gun" * 1) ∧
    (1 < sellPrice items "gun" → fits64 (sellPrice items "gun" * 1) →
      wrap64 (Int.tdiv (sellPrice items "gun") 2 * 1) < wrap64 (sellPrice items "gun" * 1)) :=
  ⟨by decide, sell_credit [⟨7, 1, 0, 0, 0, [⟨"gun", 1⟩]⟩] 1 7 "gun" 1
    ⟨7, 1, 0, 0, 0, [⟨"gun", 1⟩]⟩ 1 1000 "gun" (by decide) (by decide) (by decide)
    (by decide)⟩

/-! ## Lemmas on slices -/

theorem addQuantityAt_length (s : List Item) (k : Nat) (d : Int) :
    (addQuantityAt s k d).length = s.length := by
  induction s generalizing k with
  | nil => simp [addQuantityAt]
  | cons it rest ih =>
    cases k with
    | zero => simp [addQuantityAt]
    | succ k => simp [addQuantityAt, ih]

theorem get?_addQuantityAt (s : List Item) (k : Nat) (d : Int) :
    (addQuantityAt s k d)[k]?
      = s[k]?.map (fun it => ⟨it.Name, it.Quantity + d⟩) := by
  induction s generalizing k with
  | nil => simp [addQuantityAt]
  | cons it rest ih =>
    cases k with
    | zero => simp [addQuantityAt]
    | succ k => simpa [addQuantityAt] using ih k

theorem eraseIdx_addQuantityAt (s : List Item) (k : Nat) (d : Int) :
    (addQuantityAt s k d).eraseIdx k = s.eraseIdx k := by
  induction s generalizing k with
  | nil => simp [addQuantityAt]
  | cons it rest ih =>
    cases k with
    | zero => simp [addQuantityAt]
    | succ k => simp [addQuantityAt, ih]

theorem splice_eq_eraseIdx (s : List Item) (k : Nat) (hk : k < s.length) :
    splice s k = s.eraseIdx k := by
  unfold splice spliceCells
  rw [List.eraseIdx_eq_take_drop_succ, List.append_assoc, ← List.append_assoc,
    List.take_append_eq_append_take]
  have hl : (List.take k s ++ List.drop (k + 1) s).length = s.length - 1 := by
    simp only [List.length_append, List.length_take, List.length_drop]
    omega
  rw [List.take_of_length_le (le_of_eq hl), hl]
  simp

theorem quantityAt_addQuantityAt (s : List Item) (k : Nat) (d : Int) (hk : k < s.length) :
    quantityAt (addQuantityAt s k d) k = quantityAt s k + d := by
  unfold quantityAt
  rw [get?_addQuantityAt]
  rw [List.getElem?_eq_getElem hk]
  rfl

theorem takeAt_eq (s : List Item) (k : Nat) (amt : Int) (hk : k < s.length) :
    takeAt s k amt
      = if quantityAt s k + -amt = 0 then s.eraseIdx k else addQuantityAt s k (-amt) := by
  unfold takeAt
  simp only [quantityAt_addQuantityAt s k (-amt) hk, beq_iff_eq]
  rw [splice_eq_eraseIdx _ _ (by rw [addQuantityAt_length]; exact hk), eraseIdx_addQuantityAt]

theorem lt_length_of_name_at (s : List Item) (k : Nat) (item : String)
    (h : s[k]?.map Item.Name = some item) : k < s.length := by
  by_contra hk
  rw [List.getElem?_eq_none (not_lt.mp hk)] at h
  simp at h

theorem heldQty_addQuantityAt (s : List Item) (k : Nat) (d : Int) (item : String)
    (h : s[k]?.map Item.Name = some item) :
    heldQty (addQuantityAt s k d) item = heldQty s item + d := by
  induction s generalizing k with
  | nil => simp at h
  | cons it rest ih =>
    cases k with
    | zero =>
      simp only [List.getElem?_cons_zero, Option.map_some', Option.some.injEq] at h
      simp [addQuantityAt, heldQty, h, List.filter_cons]
      ring
    | succ k =>
      simp only [List.getElem?_cons_succ] at h
      have := ih k h
      simp only [heldQty] at this
      by_cases hn : (it.Name == item) = true
      · simp [addQuantityAt, heldQty, List.filter_cons, hn, this]
        ring
      · simp [addQuantityAt, heldQty, List.filter_cons, hn, this]

theorem otherStacks_addQuantityAt (s : List Item) (k : Nat) (d : Int) (item : String)
    (h : s[k]?.map Item.Name = some item) :
    otherStacks (addQuantityAt s k d) item = otherStacks s item := by
  induction s generalizing k with
  | nil => simp at h
  | cons it rest ih =>
    cases k with
    | zero =>
      simp only [List.getElem?_cons_zero, Option.map_some', Option.some.injEq] at h
      simp [addQuantityAt, otherStacks, h, List.filter_cons]
    | succ k =>
      simp only [List.getElem?_cons_succ] at h
      have := ih k h
      simp only [otherStacks] at this
      simp [addQuantityAt, otherStacks, List.filter_cons, this]

theorem heldQty_eraseIdx (s : List Item) (k : Nat) (item : String)
    (h : s[k]?.map Item.Name = some item) :
    heldQty (s.eraseIdx k) item = heldQty s item - quantityAt s k := by
  induction s generalizing k with
  | nil => simp at h
  | cons it rest ih =>
    cases k with
    | zero =>
      simp only [List.getElem?_cons_zero, Option.map_some', Option.some.injEq] at h
      simp [heldQty, quantityAt, h, List.filter_cons]
    | succ k =>
      simp only [List.getElem?_cons_succ] at h
      have := ih k h
      simp only [heldQty, quantityAt] at this
      by_cases hn : (it.Name == item) = true
      · simp [heldQty, quantityAt, List.filter_cons, hn, this]
        ring
      · simp [heldQty, quantityAt, List.filter_cons, hn, this]

theorem otherStacks_eraseIdx (s : List Item) (k : Nat) (item : String)
    (h : s[k]?.map Item.Name = some item) :
    otherStacks (s.eraseIdx k) item = otherStacks s item := by
  induction s generalizing k with
  | nil => simp at h
  | cons it rest ih =>
    cases k with
    | zero =>
      simp only [List.getElem?_cons_zero, Option.map_some', Option.some.injEq] at h
      simp [otherStacks, h, List.filter_cons]
    | succ k =>
      simp only [List.getElem?_cons_succ] at h
      have := ih k h
      simp only [otherStacks] at this
      simp [otherStacks, List.filter_cons, this]

theorem heldQty_takeAt (s : List Item) (k : Nat) (amt : Int) (item : String)
    (h : s[k]?.map Item.Name = some item) :
    heldQty (takeAt s k amt) item = heldQty s item - amt := by
  rw [takeAt_eq s k amt (lt_length_of_name_at s k item h)]
  by_cases hz : quantityAt s k + -amt = 0
  · rw [if_pos hz, heldQty_eraseIdx s k item h]
    omega
  · rw [if_neg hz, heldQty_addQuantityAt s k _ item h]
    ring

theorem otherStacks_takeAt (s : List Item) (k : Nat) (amt : Int) (item : String)
    (h : s[k]?.map Item.Name = some item) :
    otherStacks (takeAt s k amt) item = otherStacks s item := by
  rw [takeAt_eq s k amt (lt_length_of_name_at s k item h)]
  by_cases hz : quantityAt s k + -amt = 0
  · rw [if_pos hz, otherStacks_eraseIdx s k item h]
  · rw [if_neg hz, otherStacks_addQuantityAt s k _ item h]

theorem mem_addQuantityAt (s : List Item) (k : Nat) (d : Int) (st : Item)
    (h : st ∈ addQuantityAt s k d) :
    st ∈ s ∨ ∃ st0, s[k]? = some st0 ∧ st = ⟨st0.Name, st0.Quantity + d⟩ := by
  induction s generalizing k with
  | nil => simp [addQuantityAt] at h
  | cons it rest ih =>
    cases k with
    | zero =>
      simp only [addQuantityAt, List.mem_cons] at h
      rcases h with h | h
      · exact Or.inr ⟨it, by simp, h⟩
      · exact Or.inl (List.mem_cons_of_mem _ h)
    | succ k =>
      simp only [addQuantityAt, List.mem_cons] at h
      rcases h with h | h
      · exact Or.inl (h ▸ List.mem_cons_self _ _)
      · rcases ih k h with h1 | ⟨st0, h0, he⟩
        · exact Or.inl (List.mem_cons_of_mem _ h1)
        · exact Or.inr ⟨st0, by simpa using h0, he⟩

theorem mem_takeAt (s : List Item) (k : Nat) (amt : Int) (st : Item)
    (h : st ∈ takeAt s k amt) :
    st ∈ s ∨ ∃ st0, s[k]? = some st0 ∧ st = ⟨st0.Name, st0.Quantity + -amt⟩ ∧
      st0.Quantity + -amt ≠ 0 := by
  by_cases hk : k < s.length
  · rw [takeAt_eq s k amt hk] at h
    by_cases hz : quantityAt s k + -amt = 0
    · rw [if_pos hz] at h
      exact Or.inl (List.mem_of_mem_eraseIdx h)
    · rw [if_neg hz] at h
      rcases mem_addQuantityAt s k _ st h with h1 | ⟨st0, h0, he⟩
      · exact Or.inl h1
      · refine Or.inr ⟨st0, h0, he, ?_⟩
        simpa [quantityAt, h0] using hz
  · have hnone : s[k]? = none := List.getElem?_eq_none (not_lt.mp hk)
    have hadd : addQuantityAt s k (-amt) = s := by
      clear h hnone
      induction s generalizing k with
      | nil => simp [addQuantityAt]
      | cons it rest ih =>
        cases k with
        | zero => simp at hk
        | succ k =>
          simp only [addQuantityAt, List.cons.injEq, true_and]
          exact ih k (by simpa using hk)
    unfold takeAt at h
    simp only [hadd, quantityAt, hnone, beq_self_eq_true, if_true] at h
    unfold splice spliceCells at h
    exact Or.inl (List.mem_of_mem_take (by
      have : List.take k s ++ List.drop (k + 1) s ++ List.drop (s.length - 1) s
          = s ++ List.drop (s.length - 1) s := by
        rw [List.take_of_length_le (not_lt.mp hk), List.drop_of_length_le (by omega)]
        simp
      rw [this, List.take_append_of_le_length (by omega)] at h
      exact h))

/-! ## Lemmas on the loops -/

theorem giveLoop_some (item : String) (amt : Int) (inv : List Item) (i : Nat)
    (acc r : Option Nat) (h : giveLoop item amt inv i acc = some r) :
    (∀ st ∈ inv, st.Name = item → amt ≤ st.Quantity) ∧
      ((r = acc ∧ hasStack inv item = false) ∨
        ∃ k, r = some (i + k) ∧ inv[k]?.map Item.Name = some item) := by
  induction inv generalizing i acc with
  | nil =>
    simp only [giveLoop, Option.some.injEq] at h
    exact ⟨by simp, Or.inl ⟨h.symm, by simp [hasStack]⟩⟩
  | cons it rest ih =>
    by_cases hn : it.Name = item
    · by_cases hq : it.Quantity < amt
      · simp [giveLoop, hn, hq] at h
      · simp only [giveLoop, hn, beq_self_eq_true, if_true, hq, if_false] at h
        obtain ⟨h1, h2⟩ := ih (i + 1) (some i) h
        refine ⟨?_, Or.inr ?_⟩
        · intro st hst hname
          rcases List.mem_cons.mp hst with rfl | hst
          · exact not_lt.mp hq
          · exact h1 st hst hname
        · rcases h2 with ⟨h2, _⟩ | ⟨k, hk, hk2⟩
          · exact ⟨0, by simpa using h2, by simp [hn]⟩
          · exact ⟨k + 1, by rw [hk]; congr 1; omega, by simpa using hk2⟩
    · have hb : (it.Name == item) = false := by simpa using hn
      simp only [giveLoop, hb, Bool.false_eq_true, if_false] at h
      obtain ⟨h1, h2⟩ := ih (i + 1) acc h
      refine ⟨?_, ?_⟩
      · intro st hst hname
        rcases List.mem_cons.mp hst with rfl | hst
        · exact absurd hname hn
        · exact h1 st hst hname
      · rcases h2 with ⟨h2, h3⟩ | ⟨k, hk, hk2⟩
        · exact Or.inl ⟨h2, by simpa [hasStack, hb] using h3⟩
        · exact Or.inr ⟨k + 1, by rw [hk]; congr 1; omega, by simpa using hk2⟩

theorem useLoop_eq_giveLoop (item : String) (inv : List Item) (i : Nat) (acc : Option Nat) :
    useLoop item inv i acc = giveLoop item 1 inv i acc := by
  induction inv generalizing i acc with
  | nil => rfl
  | cons it rest ih => simp only [useLoop, giveLoop, ih]

theorem giveLoop_of_holds (item : String) (amt : Int) (inv : List Item) (i : Nat)
    (acc : Option Nat) (h : ∀ st ∈ inv, st.Name = item → amt ≤ st.Quantity) :
    ∃ r, giveLoop item amt inv i acc = some r ∧ (hasStack inv item = true → r ≠ none) ∧
      (acc ≠ none → r ≠ none) := by
  induction inv generalizing i acc with
  | nil => exact ⟨acc, rfl, by simp [hasStack], fun h => h⟩
  | cons it rest ih =>
    by_cases hn : it.Name = item
    · have hq : ¬ it.Quantity < amt := not_lt.mpr (h it (List.mem_cons_self _ _) hn)
      obtain ⟨r, hr, _, hr3⟩ := ih (i + 1) (some i)
        (fun st hst => h st (List.mem_cons_of_mem _ hst))
      refine ⟨r, ?_, fun _ => hr3 (by simp), fun _ => hr3 (by simp)⟩
      simp only [giveLoop, hn, beq_self_eq_true, if_true, hq, if_false, hr]
    · have hb : (it.Name == item) = false := by simpa using hn
      obtain ⟨r, hr, hr2, hr3⟩ := ih (i + 1) acc
        (fun st hst => h st (List.mem_cons_of_mem _ hst))
      refine ⟨r, ?_, ?_, hr3⟩
      · simp only [giveLoop, hb, Bool.false_eq_true, if_false, hr]
      · intro hs
        exact hr2 (by simpa [hasStack, hb] using hs)

theorem firstIndex_some (name : String) (inv : List Item) (j : Nat)
    (h : firstIndex name inv = some j) : inv[j]?.map Item.Name = some name := by
  induction inv generalizing j with
  | nil => simp [firstIndex] at h
  | cons it rest ih =>
    by_cases hn : it.Name = name
    · simp only [firstIndex, hn, beq_self_eq_true, if_true, Option.some.injEq] at h
      subst h
      simp [hn]
    · have hb : (it.Name == name) = false := by simpa using hn
      simp only [firstIndex, hb, Bool.false_eq_true, if_false, Option.map_eq_some'] at h
      obtain ⟨j0, hj0, rfl⟩ := h
      simpa using ih j0 hj0

/-- C4 at the failing input: the player holds one gun and sells one gun; `Sell`
reports success and the stored inventory keeps the gun stack at quantity 0. -/
theorem sell_whole_stack_keeps_zero_stack :
    Sell items [⟨7, 1, 0, 0, 0, [⟨"gun", 1⟩]⟩] 1 7 "gun" 1
      = (Outcome.sold 1 "gun" 1000, [⟨7, 1, 1000, 0, 0, [⟨"gun", 0⟩]⟩]) := by
  decide

/-! ## Positive quantities -/

/-- C6 at the failing input: the identifier "shield" resolves to 5000 in the price
loop of `Buy` and to no price in the loops of `Sell` and `Give`, which report that
the item does not exist to a player holding a shield; the other five identifiers
resolve alike in the three loops. -/
theorem shield_price_lookup_differs :
    buyPrice items "shield" = 5000 ∧ sellPrice items "shield" = 0 ∧
    givePrice items "shield" = 0 ∧
    (Sell items [⟨7, 1, 0, 0, 0, [⟨"shield", 1⟩]⟩] 1 7 "shield" 1).1
      = Outcome.itemDoesNotExist ∧
    (Give items [⟨7, 1, 0, 0, 0, [⟨"shield", 1⟩]⟩, ⟨8, 1, 0, 0, 0, []⟩] 1 7 "shield" 1 8).1
      = Outcome.itemDoesNotExist ∧
    (∀ id ∈ ["gun", "car", "chocolate", "ring", "bow"],
      buyPrice items id ≠ 0 ∧ sellPrice items id = buyPrice items id ∧
        givePrice items id = buyPrice items id) := by
  decide

/-- C10 at the failing input: a gun `Use` against a target holding exactly one
shield writes back the target's inventory with the shield stack at quantity 0, not
the empty inventory; with a stack behind the shield, the shield is dropped and the
last stack is stored twice. -/
theorem gun_on_shield_writes_stale_slice :
    Use (fun _ => false) 100000 100000 ⟨5, 0, 0⟩
        [⟨7, 1, 0, 0, 0, [⟨"gun", 1⟩]⟩, ⟨8, 1, 0, 0, 0, [⟨"shield", 1⟩]⟩] 1 7 "gun" 8
      = (Outcome.gunBlocked 8,
          [⟨7, 1, 0, 100000, 0, []⟩, ⟨8, 1, 0, 0, 0, [⟨"shield", 0⟩]⟩]) ∧
    Use (fun _ => false) 100000 100000 ⟨5, 0, 0⟩
        [⟨7, 1, 0, 0, 0, [⟨"gun", 1⟩]⟩, ⟨8, 1, 0, 0, 0, [⟨"shield", 1⟩, ⟨"car", 2⟩]⟩]
        1 7 "gun" 8
      = (Outcome.gunBlocked 8,
          [⟨7, 1, 0, 100000, 0, []⟩, ⟨8, 1, 0, 0, 0, [⟨"car", 2⟩, ⟨"car", 2⟩]⟩]) := by
  decide

/-! ## Validation failures -/

theorem buy_failure_or (cat : List ShopItem) (s : Store) (g u : Int) (item : String)
    (amount : Int) :
    (Buy cat s g u item amount).2 = IsPlaying s g u ∨
      validationFailure (Buy cat s g u item amount).1 = false := by
  unfold Buy
  simp only
  repeat' split
  all_goals first | exact Or.inl rfl | exact Or.inr rfl

theorem sell_failure_or (cat : List ShopItem) (s : Store) (g u : Int) (item : String)
    (amount : Int) :
    (Sell cat s g u item amount).2 = IsPlaying s g u ∨
      validationFailure (Sell cat s g u item amount).1 = false := by
  unfold Sell
  simp only
  repeat' split
  all_goals first | exact Or.inl rfl | exact Or.inr rfl

theorem give_failure_or (cat : List ShopItem) (s : Store) (g u : Int) (item : String)
    (amount pinged : Int) :
    (Give cat s g u item amount pinged).2 = IsPlaying s g u ∨
      validationFailure (Give cat s g u item amount pinged).1 = false := by
  unfold Give
  simp only
  repeat' split
  all_goals first | exact Or.inl rfl | exact Or.inr rfl

theorem buy_failure_store (cat : List ShopItem) (s : Store) (g u : Int) (item : String)
    (amount : Int) (h : validationFailure (Buy cat s g u item amount).1 = true) :
    (Buy cat s g u item amount).2 = IsPlaying s g u := by
  rcases buy_failure_or cat s g u item amount with h1 | h1
  · exact h1
  · rw [h1] at h
    exact absurd h (by decide)

theorem sell_failure_store (cat : List ShopItem) (s : Store) (g u : Int) (item : String)
    (amount : Int) (h : validationFailure (Sell cat s g u item amount).1 = true) :
    (Sell cat s g u item amount).2 = IsPlaying s g u := by
  rcases sell_failure_or cat s g u item amount with h1 | h1
  · exact h1
  · rw [h1] at h
    exact absurd h (by decide)

theorem give_failure_store (cat : List ShopItem) (s : Store) (g u : Int) (item : String)
    (amount pinged : Int) (h : validationFailure (Give cat s g u item amount pinged).1 = true) :
    (Give cat s g u item amount pinged).2 = IsPlaying s g u := by
  rcases give_failure_or cat s g u item amount pinged with h1 | h1
  · exact h1
  · rw [h1] at h
    exact absurd h (by decide)

/-- C7 (no write on a validation failure): when `Buy`, `Sell` or `Give` ends in a
validation failure, every record found in the store before the call is found
unchanged after it, and when the acting player had a record the store after the
call is the store before it. -/
theorem validation_failure_keeps_store (cat : List ShopItem) (s : Store) (g u : Int)
    (item : String) (amount pinged : Int) :
    (validationFailure (Buy cat s g u item amount).1 = true →
      (∀ g1 u1 r, FindOne s (userFilter g1 u1) = some r →
        FindOne (Buy cat s g u item amount).2 (userFilter g1 u1) = some r) ∧
      (∀ usr, FindOne s (userFilter g u) = some usr → (Buy cat s g u item amount).2 = s)) ∧
    (validationFailure (Sell cat s g u item amount).1 = true →
      (∀ g1 u1 r, FindOne s (userFilter g1 u1) = some r →
        FindOne (Sell cat s g u item amount).2 (userFilter g1 u1) = some r) ∧
      (∀ usr, FindOne s (userFilter g u) = some usr → (Sell cat s g u item amount).2 = s)) ∧
    (validationFailure (Give cat s g u item amount pinged).1 = true →
      (∀ g1 u1 r, FindOne s (userFilter g1 u1) = some r →
        FindOne (Give cat s g u item amount pinged).2 (userFilter g1 u1) = some r) ∧
      (∀ usr, FindOne s (userFilter g u) = some usr →
        (Give cat s g u item amount pinged).2 = s)) := by
  refine ⟨fun h => ?_, fun h => ?_, fun h => ?_⟩
  · rw [buy_failure_store cat s g u item amount h]
    exact ⟨fun g1 u1 r hr => findOne_IsPlaying_of_found s g u g1 u1 r hr,
      fun usr hu => IsPlaying_of_found s g u usr hu⟩
  · rw [sell_failure_store cat s g u item amount h]
    exact ⟨fun g1 u1 r hr => findOne_IsPlaying_of_found s g u g1 u1 r hr,
      fun usr hu => IsPlaying_of_found s g u usr hu⟩
  · rw [give_failure_store cat s g u item amount pinged h]
    exact ⟨fun g1 u1 r hr => findOne_IsPlaying_of_found s g u g1 u1 r hr,
      fun usr hu => IsPlaying_of_found s g u usr hu⟩

/-- Witness for C7: with balance 0 and no gun held, selling one gun fails and the
store is the store before the call. -/
theorem validation_failure_keeps_store_witness :
    (Sell items [⟨7, 1, 0, 0, 0, [⟨"car", 1⟩]⟩] 1 7 "gun" 1).1 = Outcome.notEnoughToSell ∧
    (Sell items [⟨7, 1, 0, 0, 0, [⟨"car", 1⟩]⟩] 1 7 "gun" 1).2
      = [⟨7, 1, 0, 0, 0, [⟨"car", 1⟩]⟩] :=
  ⟨by decide,
    ((validation_failure_keeps_store items [⟨7, 1, 0, 0, 0, [⟨"car", 1⟩]⟩] 1 7 "gun" 1 8).2.1
      (by decide)).2 ⟨7, 1, 0, 0, 0, [⟨"car", 1⟩]⟩ (by decide)⟩

/-! ## Use: the cooldown guard -/

theorem lastUse_updateOne (g u g1 u1 : Int) (f : User → User)
    (hf : ∀ d, (f d).UserID = d.UserID ∧ (f d).GuildID = d.GuildID ∧ (f d).LastUse = d.LastUse)
    (s : Store) :
    (FindOne (UpdateOne (userFilter g1 u1) f s) (userFilter g u)).map User.LastUse
      = (FindOne s (userFilter g u)).map User.LastUse := by
  rw [findOne_updateOne_key g1 u1 g u f (fun d => ⟨(hf d).1, (hf d).2.1⟩)]
  split
  · rename_i h
    obtain ⟨rfl, rfl⟩ := h
    cases FindOne s (userFilter g u) with
    | none => rfl
    | some d => simp [(hf d).2.2]
  · rfl

theorem useChocolate_spec (rnd : Draws) (s : Store) (g u : Int) (user : User) :
    rejectedBeforeStamp (useChocolate rnd s g u user).1 = false ∧
    (FindOne (useChocolate rnd s g u user).2 (userFilter g u)).map User.LastUse
      = (FindOne s (userFilter g u)).map User.LastUse := by
  unfold useChocolate
  split
  · refine ⟨rfl, ?_⟩
    rw [lastUse_updateOne]
    exact fun d => ⟨rfl, rfl, rfl⟩
  · exact ⟨rfl, rfl⟩

theorem useCar_spec (s : Store) (g u p : Int) :
    rejectedBeforeStamp (useCar s g u p).1 = false ∧
    (FindOne (useCar s g u p).2 (userFilter g u)).map User.LastUse
      = (FindOne s (userFilter g u)).map User.LastUse := by
  unfold useCar
  split
  · exact ⟨rfl, rfl⟩
  · split
    · exact ⟨rfl, rfl⟩
    · refine ⟨rfl, ?_⟩
      simp only
      rw [lastUse_updateOne, lastUse_updateOne]
      · exact fun d => ⟨rfl, rfl, rfl⟩
      · exact fun d => ⟨rfl, rfl, rfl⟩

theorem useGun_spec (rnd : Draws) (s : Store) (g u p : Int) :
    rejectedBeforeStamp (useGun rnd s g u p).1 = false ∧
    (FindOne (useGun rnd s g u p).2 (userFilter g u)).map User.LastUse
      = (FindOne s (userFilter g u)).map User.LastUse := by
  unfold useGun
  split
  · exact ⟨rfl, rfl⟩
  · split
    · refine ⟨rfl, ?_⟩
      simp only
      rw [lastUse_updateOne]
      exact fun d => ⟨rfl, rfl, rfl⟩
    · refine ⟨rfl, ?_⟩
      simp only
      rw [lastUse_updateOne, lastUse_updateOne]
      · exact fun d => ⟨rfl, rfl, rfl⟩
      · exact fun d => ⟨rfl, rfl, rfl⟩

theorem useBow_spec (rnd : Draws) (s : Store) (g u p : Int) (user : User) :
    rejectedBeforeStamp (useBow rnd s g u p user).1 = false ∧
    (FindOne (useBow rnd s g u p user).2 (userFilter g u)).map User.LastUse
      = (FindOne s (userFilter g u)).map User.LastUse := by
  unfold useBow
  split
  · exact ⟨rfl, rfl⟩
  · simp only
    split
    · refine ⟨rfl, ?_⟩
      simp only
      rw [lastUse_updateOne, lastUse_updateOne]
      · exact fun d => ⟨rfl, rfl, rfl⟩
      · exact fun d => ⟨rfl, rfl, rfl⟩
    · refine ⟨rfl, ?_⟩
      simp only
      rw [lastUse_updateOne, lastUse_updateOne]
      · exact fun d => ⟨rfl, rfl, rfl⟩
      · exact fun d => ⟨rfl, rfl, rfl⟩

theorem useRing_spec (s : Store) (g u p : Int) (user : User) (k : Nat) :
    rejectedBeforeStamp (useRing s g u p user k).1 = false ∧
    (FindOne (useRing s g u p user k).2 (userFilter g u)).map User.LastUse
      = (FindOne s (userFilter g u)).map User.LastUse := by
  unfold useRing
  split
  · exact ⟨rfl, rfl⟩
  · split
    · exact ⟨rfl, rfl⟩
    · simp only
      split
      · exact ⟨rfl, rfl⟩
      · split
        · refine ⟨rfl, ?_⟩
          simp only
          rw [lastUse_updateOne]
          exact fun d => ⟨rfl, rfl, rfl⟩
        · refine ⟨rfl, ?_⟩
          simp only
          rw [lastUse_updateOne]
          exact fun d => ⟨rfl, rfl, rfl⟩

theorem useLoop_of_holdsOne (inv : List Item) (item : String) (h : holdsOne inv item) :
    inv.length ≠ 0 ∧ ∃ idx, useLoop item inv 0 none = some (some idx) := by
  obtain ⟨⟨st, hst, hn⟩, hall⟩ := h
  refine ⟨?_, ?_⟩
  · intro hl
    rw [List.length_eq_zero] at hl
    rw [hl] at hst
    simp at hst
  · obtain ⟨r, hr, hr2, _⟩ := giveLoop_of_holds item 1 inv 0 none hall
    have hs : hasStack inv item = true := by
      simp only [hasStack, List.any_eq_true, beq_iff_eq]
      exact ⟨st, hst, hn⟩
    cases r with
    | none => exact absurd rfl (hr2 hs)
    | some idx => exact ⟨idx, by rw [useLoop_eq_giveLoop, hr]⟩

/-- What `Use` does once the ownership checks are passed: the cooldown return with
the store untouched, or the stamp followed by the effect. -/
theorem use_after_checks (IsOwner : Int → Bool) (now stamp : Int) (rnd : Draws) (s : Store)
    (g u : Int) (item : String) (p : Int) (usr : User) (idx : Nat)
    (hu : FindOne (IsPlaying s g u) (userFilter g u) = some usr)
    (hlen : usr.Inventory.length ≠ 0)
    (hloop : useLoop item usr.Inventory 0 none = some (some idx)) :
    if now - usr.LastUse < 60000 ∧ IsOwner u = false then
      Use IsOwner now stamp rnd s g u item p = (Outcome.cooldownActive, IsPlaying s g u)
    else
      rejectedBeforeStamp (Use IsOwner now stamp rnd s g u item p).1 = false ∧
      (FindOne (Use IsOwner now stamp rnd s g u item p).2 (userFilter g u)).map User.LastUse
        = some stamp := by
  have hstamp : (FindOne (UpdateOne (userFilter g u) (fun d => { d with LastUse := stamp })
      (IsPlaying s g u)) (userFilter g u)).map User.LastUse = some stamp := by
    rw [findOne_updateOne_key, if_pos ⟨rfl, rfl⟩, hu]
    · rfl
    · exact fun d => ⟨rfl, rfl⟩
  have hlen2 : (usr.Inventory.length == 0) = false := by simpa using hlen
  by_cases hc : now - usr.LastUse < 60000 ∧ IsOwner u = false
  · have hc2 : (decide (now - usr.LastUse < 60000) && (IsOwner u == false)) = true := by
      simp [hc.1, hc.2]
    rw [if_pos hc]
    unfold Use
    simp only [hu, hloop, hlen2, hc2, Bool.false_eq_true, if_false, if_true]
  · have hc2 : (decide (now - usr.LastUse < 60000) && (IsOwner u == false)) = false := by
      by_cases h1 : now - usr.LastUse < 60000
      · have : IsOwner u = true := by
          by_contra h2
          exact hc ⟨h1, by simpa using h2⟩
        simp [this]
      · simp [h1]
    rw [if_neg hc]
    unfold Use
    simp only [hu, hloop, hlen2, hc2, Bool.false_eq_true, if_false]
    by_cases hd : (item != "car" && item != "ring") = true
    · have hinv : (FindOne (UpdateOne (userFilter g u)
          (fun d => { d with Inventory := takeAt usr.Inventory idx 1 })
          (UpdateOne (userFilter g u) (fun d => { d with LastUse := stamp })
            (IsPlaying s g u))) (userFilter g u)).map User.LastUse = some stamp := by
        rw [lastUse_updateOne, hstamp]
        exact fun d => ⟨rfl, rfl, rfl⟩
      simp only [hd, if_true]
      split
      · rw [← hinv]
        exact useChocolate_spec _ _ _ _ _
      · split
        · rw [← hinv]
          exact useCar_spec _ _ _ _
        · split
          · rw [← hinv]
            exact useGun_spec _ _ _ _ _
          · split
            · rw [← hinv]
              exact useBow_spec _ _ _ _ _ _
            · split
              · rw [← hinv]
                exact useRing_spec _ _ _ _ _ _
              · exact ⟨rfl, hinv⟩
    · simp only [hd, Bool.false_eq_true, if_false]
      split
      · rw [← hstamp]
        exact useChocolate_spec _ _ _ _ _
      · split
        · rw [← hstamp]
          exact useCar_spec _ _ _ _
        · split
          · rw [← hstamp]
            exact useGun_spec _ _ _ _ _
          · split
            · rw [← hstamp]
              exact useBow_spec _ _ _ _ _ _
            · split
              · rw [← hstamp]
                exact useRing_spec _ _ _ _ _ _
              · exact ⟨rfl, hstamp⟩

theorem use_passed_guard (IsOwner : Int → Bool) (now stamp : Int) (rnd : Draws) (s : Store)
    (g u : Int) (item : String) (p : Int)
    (h : rejectedBeforeStamp (Use IsOwner now stamp rnd s g u item p).1 = false) :
    (FindOne (Use IsOwner now stamp rnd s g u item p).2 (userFilter g u)).map User.LastUse
      = some stamp := by
  obtain ⟨usr, hu, _⟩ := findOne_IsPlaying s g u
  by_cases hlen : usr.Inventory.length = 0
  · have : (Use IsOwner now stamp rnd s g u item p).1 = Outcome.noItems := by
      unfold Use
      simp [hu, hlen]
    rw [this] at h
    exact absurd h (by decide)
  · cases hloop : useLoop item usr.Inventory 0 none with
    | none =>
      have : (Use IsOwner now stamp rnd s g u item p).1 = Outcome.notEnoughToUse := by
        unfold Use
        simp [hu, hlen, hloop]
      rw [this] at h
      exact absurd h (by decide)
    | some r =>
      cases r with
      | none =>
        have : (Use IsOwner now stamp rnd s g u item p).1 = Outcome.notInInventoryUse := by
          unfold Use
          simp [hu, hlen, hloop]
        rw [this] at h
        exact absurd h (by decide)
      | some idx =>
        have hx := use_after_checks IsOwner now stamp rnd s g u item p usr idx hu hlen hloop
        by_cases hc : now - usr.LastUse < 60000 ∧ IsOwner u = false
        · rw [if_pos hc] at hx
          rw [hx] at h
          simp [rejectedBeforeStamp] at h
        · rw [if_neg hc] at hx
          exact hx.2

/-- C8 (cooldown guard): for a player outside the bypass list who holds at least one
of the item, `Use` returns the cooldown message and leaves the store as it was
exactly when fewer than 60 seconds (60000 ms) have passed since `LastUse`; once the
cooldown has passed, the acting player's stored `LastUse` is the time stamped by
the call, whichever way the effect of the item ends. -/
theorem use_cooldown (IsOwner : Int → Bool) (now stamp : Int) (rnd : Draws) (s : Store)
    (g u : Int) (item : String) (p : Int) (usr : User)
    (hown : IsOwner u = false)
    (hu : FindOne s (userFilter g u) = some usr)
    (hh : holdsOne usr.Inventory item) :
    (((Use IsOwner now stamp rnd s g u item p).1 = Outcome.cooldownActive ∧
        (Use IsOwner now stamp rnd s g u item p).2 = s) ↔ now - usr.LastUse < 60000) ∧
    (60000 ≤ now - usr.LastUse →
      ∃ usr1, FindOne (Use IsOwner now stamp rnd s g u item p).2 (userFilter g u) = some usr1 ∧
        usr1.LastUse = stamp) := by
  obtain ⟨hlen, idx, hloop⟩ := useLoop_of_holdsOne usr.Inventory item hh
  have hs : IsPlaying s g u = s := IsPlaying_of_found s g u usr hu
  have hx := use_after_checks IsOwner now stamp rnd s g u item p usr idx (by rw [hs]; exact hu)
    hlen hloop
  rw [hs] at hx
  by_cases hc : now - usr.LastUse < 60000
  · rw [if_pos ⟨hc, hown⟩] at hx
    refine ⟨⟨fun _ => hc, fun _ => by rw [hx]; exact ⟨rfl, rfl⟩⟩, fun h => by omega⟩
  · rw [if_neg (fun h => hc h.1)] at hx
    refine ⟨⟨fun h => ?_, fun h => absurd h hc⟩, fun _ => ?_⟩
    · have h2 := hx.1
      rw [h.1] at h2
      exact absurd h2 (by decide)
    · have h2 := hx.2
      rw [Option.map_eq_some'] at h2
      exact h2

/-- Witness for C8: a player holding two chocolates whose last use is 100 seconds
old. -/
theorem use_cooldown_witness :
    (((Use (fun _ => false) 100000 100002 ⟨5, 0, 0⟩ [⟨7, 1, 0, 0, 0, [⟨"chocolate", 2⟩]⟩]
          1 7 "chocolate" 0).1 = Outcome.cooldownActive ∧
        (Use (fun _ => false) 100000 100002 ⟨5, 0, 0⟩ [⟨7, 1, 0, 0, 0, [⟨"chocolate", 2⟩]⟩]
          1 7 "chocolate" 0).2 = [⟨7, 1, 0, 0, 0, [⟨"chocolate", 2⟩]⟩])
        ↔ (100000 : Int) - 0 < 60000) ∧
    ((60000 : Int) ≤ 100000 - 0 →
      ∃ usr1, FindOne (Use (fun _ => false) 100000 100002 ⟨5, 0, 0⟩
          [⟨7, 1, 0, 0, 0, [⟨"chocolate", 2⟩]⟩] 1 7 "chocolate" 0).2 (userFilter 1 7)
          = some usr1 ∧
        usr1.LastUse = 100002) :=
  use_cooldown (fun _ => false) 100000 100002 ⟨5, 0, 0⟩ [⟨7, 1, 0, 0, 0, [⟨"chocolate", 2⟩]⟩]
    1 7 "chocolate" 0 ⟨7, 1, 0, 0, 0, [⟨"chocolate", 2⟩]⟩ rfl (by decide)
    (by decide)

/-- C9, as stated, fails on the code in two ways.  A player outside the bypass list
uses the only chocolate held, and a second `Use` one millisecond later returns "no
items", the ownership checks coming before the cooldown guard.  A player on the
bypass list uses a chocolate, and a second `Use` one millisecond later goes
through. -/
theorem second_use_counterexample :
    (Use (fun _ => false) 100000 100000 ⟨5, 0, 0⟩ [⟨7, 1, 0, 0, 0, [⟨"chocolate", 1⟩]⟩]
        1 7 "chocolate" 0 = (Outcome.ateChocolate, [⟨7, 1, 0, 100000, 0, []⟩]) ∧
      (Use (fun _ => false) 100001 100001 ⟨5, 0, 0⟩ [⟨7, 1, 0, 100000, 0, []⟩]
        1 7 "chocolate" 0).1 = Outcome.noItems) ∧
    (Use (fun _ => true) 100000 100000 ⟨5, 0, 0⟩ [⟨7, 1, 0, 0, 0, [⟨"chocolate", 2⟩]⟩]
        1 7 "chocolate" 0
        = (Outcome.ateChocolate, [⟨7, 1, 0, 100000, 0, [⟨"chocolate", 1⟩]⟩]) ∧
      (Use (fun _ => true) 100001 100001 ⟨5, 0, 0⟩
        [⟨7, 1, 0, 100000, 0, [⟨"chocolate", 1⟩]⟩] 1 7 "chocolate" 0).1
        = Outcome.ateChocolate) := by
  decide

/-- C9, amended: for a player outside the bypass list, when a first `Use` has passed
the cooldown guard and a second `Use` is made less than 60 seconds (60000 ms) after
it, naming any item the player then holds at least one of, the second call returns
the cooldown message and leaves the store as the first call left it.  The clock
does not run backwards between the guard and the stamp of the first call. -/
theorem second_use_within_minute (IsOwner : Int → Bool) (now1 stamp1 now2 stamp2 : Int)
    (rnd1 rnd2 : Draws) (s : Store) (g u : Int) (item1 item2 : String) (p1 p2 : Int)
    (usr1 : User)
    (hown : IsOwner u = false)
    (hfirst : rejectedBeforeStamp (Use IsOwner now1 stamp1 rnd1 s g u item1 p1).1 = false)
    (hclock : now1 ≤ stamp1) (hclose : now2 - now1 < 60000)
    (hu1 : FindOne (Use IsOwner now1 stamp1 rnd1 s g u item1 p1).2 (userFilter g u)
      = some usr1)
    (hh : holdsOne usr1.Inventory item2) :
    Use IsOwner now2 stamp2 rnd2 (Use IsOwner now1 stamp1 rnd1 s g u item1 p1).2 g u item2 p2
      = (Outcome.cooldownActive, (Use IsOwner now1 stamp1 rnd1 s g u item1 p1).2) := by
  have hl := use_passed_guard IsOwner now1 stamp1 rnd1 s g u item1 p1 hfirst
  rw [hu1] at hl
  simp only [Option.map_some', Option.some.injEq] at hl
  obtain ⟨hlen, idx, hloop⟩ := useLoop_of_holdsOne usr1.Inventory item2 hh
  have hs := IsPlaying_of_found _ g u usr1 hu1
  have hx := use_after_checks IsOwner now2 stamp2 rnd2 _ g u item2 p2 usr1 idx
    (by rw [hs]; exact hu1) hlen hloop
  rw [hs, if_pos ⟨by omega, hown⟩] at hx
  exact hx

/-- Witness for C9 as amended: a chocolate used, then a bow named one millisecond
later. -/
theorem second_use_within_minute_witness :
    Use (fun _ => false) 100001 100001 ⟨5, 0, 0⟩
        (Use (fun _ => false) 100000 100000 ⟨5, 0, 0⟩
          [⟨7, 1, 0, 0, 0, [⟨"chocolate", 1⟩, ⟨"bow", 1⟩]⟩] 1 7 "chocolate" 0).2 1 7 "bow" 8
      = (Outcome.cooldownActive,
          (Use (fun _ => false) 100000 100000 ⟨5, 0, 0⟩
            [⟨7, 1, 0, 0, 0, [⟨"chocolate", 1⟩, ⟨"bow", 1⟩]⟩] 1 7 "chocolate" 0).2) :=
  second_use_within_minute (fun _ => false) 100000 100000 100001 100001 ⟨5, 0, 0⟩ ⟨5, 0, 0⟩
    [⟨7, 1, 0, 0, 0, [⟨"chocolate", 1⟩, ⟨"bow", 1⟩]⟩] 1 7 "chocolate" "bow" 0 8
    ⟨7, 1, 0, 100000, 0, [⟨"bow", 1⟩]⟩ rfl (by decide) (by decide) (by decide) (by decide)
    (by decide)

/-! ## Use: from the checks to the effect -/

theorem IsPlaying_idem (s : Store) (g u : Int) :
    IsPlaying (IsPlaying s g u) g u = IsPlaying s g u := by
  obtain ⟨usr, hu, _⟩ := findOne_IsPlaying s g u
  exact IsPlaying_of_found _ g u usr hu

theorem use_IsPlaying (IsOwner : Int → Bool) (now stamp : Int) (rnd : Draws) (s : Store)
    (g u : Int) (item : String) (p : Int) :
    Use IsOwner now stamp rnd (IsPlaying s g u) g u item p
      = Use IsOwner now stamp rnd s g u item p := by
  unfold Use
  rw [IsPlaying_idem]

/-- The value of `Use` once the ownership checks and the cooldown guard are passed:
the effect of the item, started from the stamped store. -/
theorem use_unfold (IsOwner : Int → Bool) (now stamp : Int) (rnd : Draws) (s : Store)
    (g u : Int) (item : String) (p : Int) (usr : User) (idx : Nat)
    (hu : FindOne s (userFilter g u) = some usr)
    (hlen : usr.Inventory.length ≠ 0)
    (hloop : useLoop item usr.Inventory 0 none = some (some idx))
    (hc : cooldownPassed IsOwner now u usr) :
    Use IsOwner now stamp rnd s g u item p =
      if item = "chocolate" then
        useChocolate rnd (afterTake stamp g u usr.Inventory idx s) g u
          { usr with Inventory := takeAt usr.Inventory idx 1 }
      else if item = "car" then useCar (afterStamp stamp g u s) g u p
      else if item = "gun" then useGun rnd (afterTake stamp g u usr.Inventory idx s) g u p
      else if item = "bow" then
        useBow rnd (afterTake stamp g u usr.Inventory idx s) g u p
          { usr with Inventory := takeAt usr.Inventory idx 1 }
      else if item = "ring" then useRing (afterStamp stamp g u s) g u p usr idx
      else (Outcome.noMessage, afterTake stamp g u usr.Inventory idx s) := by
  have hlen2 : (usr.Inventory.length == 0) = false := by simpa using hlen
  have hc2 : (decide (now - usr.LastUse < 60000) && (IsOwner u == false)) = false := by
    unfold cooldownPassed at hc
    by_cases h1 : now - usr.LastUse < 60000
    · have : IsOwner u = true := by
        by_contra h2
        exact hc ⟨h1, by simpa using h2⟩
      simp [this]
    · simp [h1]
  unfold Use
  rw [IsPlaying_of_found s g u usr hu]
  simp only [hu, hloop, hlen2, hc2, Bool.false_eq_true, if_false]
  by_cases h1 : item = "chocolate"
  · subst h1
    simp [afterTake, afterStamp]
  by_cases h2 : item = "car"
  · subst h2
    simp [afterTake, afterStamp]
  by_cases h3 : item = "gun"
  · subst h3
    simp [afterTake, afterStamp]
  by_cases h4 : item = "bow"
  · subst h4
    simp [afterTake, afterStamp]
  by_cases h5 : item = "ring"
  · subst h5
    simp [afterTake, afterStamp]
  simp [h1, h2, h3, h4, h5, afterTake, afterStamp]

theorem findOne_afterStamp (stamp g u g1 u1 : Int) (s : Store) :
    FindOne (afterStamp stamp g u s) (userFilter g1 u1) =
      if g1 = g ∧ u1 = u then
        (FindOne s (userFilter g u)).map (fun d => { d with LastUse := stamp })
      else FindOne s (userFilter g1 u1) := by
  unfold afterStamp
  rw [findOne_updateOne_key]
  exact fun d => ⟨rfl, rfl⟩

theorem findOne_afterTake (stamp g u g1 u1 : Int) (inv : List Item) (idx : Nat) (s : Store) :
    FindOne (afterTake stamp g u inv idx s) (userFilter g1 u1) =
      if g1 = g ∧ u1 = u then
        (FindOne s (userFilter g u)).map
          (fun d => { d with LastUse := stamp, Inventory := takeAt inv idx 1 })
      else FindOne s (userFilter g1 u1) := by
  unfold afterTake
  rw [findOne_updateOne_key, findOne_afterStamp, findOne_afterStamp]
  · by_cases h : g1 = g ∧ u1 = u
    · simp only [h, and_self, if_true, Option.map_map]
      rfl
    · simp only [h, if_false]
  · exact fun d => ⟨rfl, rfl⟩

theorem proj_updateOne {α : Type} (φ : User → α) (g u g1 u1 : Int) (f : User → User)
    (hf : ∀ d, (f d).UserID = d.UserID ∧ (f d).GuildID = d.GuildID ∧ φ (f d) = φ d)
    (s : Store) :
    (FindOne (UpdateOne (userFilter g1 u1) f s) (userFilter g u)).map φ
      = (FindOne s (userFilter g u)).map φ := by
  rw [findOne_updateOne_key g1 u1 g u f (fun d => ⟨(hf d).1, (hf d).2.1⟩)]
  split
  · rename_i h
    obtain ⟨rfl, rfl⟩ := h
    cases FindOne s (userFilter g u) with
    | none => rfl
    | some d => simp [(hf d).2.2]
  · rfl

theorem useLoop_of_holdsOne_name (inv : List Item) (item : String) (h : holdsOne inv item) :
    inv.length ≠ 0 ∧ ∃ idx, useLoop item inv 0 none = some (some idx) ∧
      inv[idx]?.map Item.Name = some item ∧ ∀ st ∈ inv, st.Name = item → 1 ≤ st.Quantity := by
  obtain ⟨hlen, idx, hloop⟩ := useLoop_of_holdsOne inv item h
  refine ⟨hlen, idx, hloop, ?_, h.2⟩
  rw [useLoop_eq_giveLoop] at hloop
  obtain ⟨_, hidx⟩ := giveLoop_some item 1 inv 0 none (some idx) hloop
  rcases hidx with ⟨hc, _⟩ | ⟨k, hk, hk2⟩
  · simp at hc
  · simp only [Option.some.injEq, zero_add] at hk
    rw [hk]
    exact hk2

/-! ## Use: car -/

/-- C11 (car): for a car `Use` that passes the ownership checks and the cooldown
guard, against a playing target other than the acting player: when the target's
balance is below 1000 no balance of any record changes; otherwise the target's
balance goes down by exactly 1000 and the acting player's up by exactly 1000, the
sum of the two is as before and the target's balance stays at or above 0. -/
theorem car_transfer (IsOwner : Int → Bool) (now stamp : Int) (rnd : Draws) (s : Store)
    (g u p : Int) (usr tgt : User)
    (hne : u ≠ p)
    (hu : FindOne s (userFilter g u) = some usr)
    (ht : FindOne s (userFilter g p) = some tgt)
    (hh : holdsOne usr.Inventory "car")
    (hc : cooldownPassed IsOwner now u usr) :
    (tgt.Balance < 1000 →
      ∀ g1 u1, (FindOne (Use IsOwner now stamp rnd s g u "car" p).2 (userFilter g1 u1)).map
          User.Balance = (FindOne s (userFilter g1 u1)).map User.Balance) ∧
    (1000 ≤ tgt.Balance →
      ∃ usr1 tgt1,
        FindOne (Use IsOwner now stamp rnd s g u "car" p).2 (userFilter g u) = some usr1 ∧
        FindOne (Use IsOwner now stamp rnd s g u "car" p).2 (userFilter g p) = some tgt1 ∧
        tgt1.Balance = tgt.Balance - 1000 ∧ usr1.Balance = usr.Balance + 1000 ∧
        usr1.Balance + tgt1.Balance = usr.Balance + tgt.Balance ∧ 0 ≤ tgt1.Balance) := by
  obtain ⟨hlen, idx, hloop⟩ := useLoop_of_holdsOne usr.Inventory "car" hh
  have hne2 : ¬ (g = g ∧ p = u) := fun h => hne h.2.symm
  have hne3 : ¬ (g = g ∧ u = p) := fun h => hne h.2
  have htS : FindOne (afterStamp stamp g u s) (userFilter g p) = some tgt := by
    rw [findOne_afterStamp, if_neg hne2, ht]
  have huS : FindOne (afterStamp stamp g u s) (userFilter g u)
      = some { usr with LastUse := stamp } := by
    rw [findOne_afterStamp, if_pos ⟨rfl, rfl⟩, hu]
    rfl
  rw [use_unfold IsOwner now stamp rnd s g u "car" p usr idx hu hlen hloop hc]
  simp only [String.reduceEq, if_false, if_true]
  unfold useCar
  simp only [htS]
  refine ⟨fun hlt g1 u1 => ?_, fun hge => ?_⟩
  · simp only [hlt, if_true]
    unfold afterStamp
    rw [proj_updateOne]
    exact fun d => ⟨rfl, rfl, rfl⟩
  · have hnlt : ¬ tgt.Balance < 1000 := not_lt.mpr hge
    simp only [hnlt, if_false]
    refine ⟨{ usr with LastUse := stamp, Balance := usr.Balance + 1000 },
      { tgt with Balance := tgt.Balance + -1000 }, ?_, ?_, ?_, rfl, ?_, ?_⟩
    · rw [findOne_updateOne_key, if_neg hne3, findOne_updateOne_key, if_pos ⟨rfl, rfl⟩, huS]
      · rfl
      · exact fun d => ⟨rfl, rfl⟩
      · exact fun d => ⟨rfl, rfl⟩
    · rw [findOne_updateOne_key, if_pos ⟨rfl, rfl⟩, findOne_updateOne_key, if_neg hne2, htS]
      · rfl
      · exact fun d => ⟨rfl, rfl⟩
      · exact fun d => ⟨rfl, rfl⟩
    · simp only
      ring
    · simp only
      ring
    · simp only
      omega

/-- Witness for C11: a car owner runs over a target holding 1500 coins. -/
theorem car_transfer_witness :
    ((1500 : Int) < 1000 →
      ∀ g1 u1, (FindOne (Use (fun _ => false) 100000 100000 ⟨5, 0, 0⟩
          [⟨7, 1, 10, 0, 0, [⟨"car", 1⟩]⟩, ⟨8, 1, 1500, 0, 0, []⟩] 1 7 "car" 8).2
          (userFilter g1 u1)).map User.Balance
        = (FindOne [⟨7, 1, 10, 0, 0, [⟨"car", 1⟩]⟩, ⟨8, 1, 1500, 0, 0, []⟩]
          (userFilter g1 u1)).map User.Balance) ∧
    ((1000 : Int) ≤ 1500 →
      ∃ usr1 tgt1,
        FindOne (Use (fun _ => false) 100000 100000 ⟨5, 0, 0⟩
          [⟨7, 1, 10, 0, 0, [⟨"car", 1⟩]⟩, ⟨8, 1, 1500, 0, 0, []⟩] 1 7 "car" 8).2
          (userFilter 1 7) = some usr1 ∧
        FindOne (Use (fun _ => false) 100000 100000 ⟨5, 0, 0⟩
          [⟨7, 1, 10, 0, 0, [⟨"car", 1⟩]⟩, ⟨8, 1, 1500, 0, 0, []⟩] 1 7 "car" 8).2
          (userFilter 1 8) = some tgt1 ∧
        tgt1.Balance = 1500 - 1000 ∧ usr1.Balance = 10 + 1000 ∧
        usr1.Balance + tgt1.Balance = 10 + 1500 ∧ 0 ≤ tgt1.Balance) :=
  car_transfer (fun _ => false) 100000 100000 ⟨5, 0, 0⟩
    [⟨7, 1, 10, 0, 0, [⟨"car", 1⟩]⟩, ⟨8, 1, 1500, 0, 0, []⟩] 1 7 8
    ⟨7, 1, 10, 0, 0, [⟨"car", 1⟩]⟩ ⟨8, 1, 1500, 0, 0, []⟩ (by decide) (by decide) (by decide)
    (by decide) (by decide)

theorem takeAt_one_spec (inv : List Item) (idx : Nat) (item : String)
    (hname : inv[idx]?.map Item.Name = some item)
    (hall : ∀ st ∈ inv, st.Name = item → 1 ≤ st.Quantity) :
    heldQty (takeAt inv idx 1) item = heldQty inv item - 1 ∧
    (∀ st ∈ takeAt inv idx 1, st.Name = item → 0 < st.Quantity) ∧
    otherStacks (takeAt inv idx 1) item = otherStacks inv item := by
  refine ⟨heldQty_takeAt inv idx 1 item hname, ?_, otherStacks_takeAt inv idx 1 item hname⟩
  intro st hst hn
  rcases mem_takeAt _ _ _ _ hst with h1 | ⟨st0, h0, hst0, hnz⟩
  · have := hall st h1 hn
    omega
  · have hn0 : st0.Name = item := by
      rw [h0] at hname
      simpa using hname
    have := hall st0 (List.getElem?_mem h0) hn0
    rw [hst0]
    simp only
    omega

/-! ## Use: ring -/

/-- C12, as stated, fails on the code when the acting player names themselves as
target: the ring is accepted, and the target's record, which is the acting player's
own, is not unchanged (its `MarriedTo` is set and its ring taken). -/
theorem ring_on_self_counterexample :
    Use (fun _ => false) 100000 100000 ⟨5, 0, 0⟩ [⟨7, 1, 0, 0, 0, [⟨"ring", 1⟩]⟩] 1 7 "ring" 7
      = (Outcome.proposed 7, [⟨7, 1, 0, 100000, 7, []⟩]) ∧
    FindOne (Use (fun _ => false) 100000 100000 ⟨5, 0, 0⟩ [⟨7, 1, 0, 0, 0, [⟨"ring", 1⟩]⟩]
        1 7 "ring" 7).2 (userFilter 1 7)
      ≠ FindOne [⟨7, 1, 0, 0, 0, [⟨"ring", 1⟩]⟩] (userFilter 1 7) := by
  decide

/-- C12, amended (the target's record is unchanged when the target is another
player): for a ring `Use` by a player who holds a ring and passes the cooldown
guard, against a playing target: when the target's `MarriedTo` is neither 0 nor the
acting player, or the acting player's own `MarriedTo` is not 0, the call returns
one of the two "already married" messages and no `MarriedTo` and no inventory of
any record changes; otherwise the acting player's `MarriedTo` becomes the target,
exactly one ring is taken from the acting player's inventory (no ring stack is left
at 0, the other stacks are as they were), and the record of a target other than the
acting player is unchanged. -/
theorem ring_use (IsOwner : Int → Bool) (now stamp : Int) (rnd : Draws) (s : Store)
    (g u p : Int) (usr tgt : User)
    (hu : FindOne s (userFilter g u) = some usr)
    (ht : FindOne s (userFilter g p) = some tgt)
    (hh : holdsOne usr.Inventory "ring")
    (hc : cooldownPassed IsOwner now u usr) :
    (((tgt.MarriedTo ≠ 0 ∧ tgt.MarriedTo ≠ u) ∨ usr.MarriedTo ≠ 0) →
      ((Use IsOwner now stamp rnd s g u "ring" p).1 = Outcome.targetAlreadyMarried ∨
        (Use IsOwner now stamp rnd s g u "ring" p).1 = Outcome.selfAlreadyMarried) ∧
      ∀ g1 u1,
        (FindOne (Use IsOwner now stamp rnd s g u "ring" p).2 (userFilter g1 u1)).map
            (fun d => (d.MarriedTo, d.Inventory))
          = (FindOne s (userFilter g1 u1)).map (fun d => (d.MarriedTo, d.Inventory))) ∧
    (¬ ((tgt.MarriedTo ≠ 0 ∧ tgt.MarriedTo ≠ u) ∨ usr.MarriedTo ≠ 0) →
      ∃ usr1,
        FindOne (Use IsOwner now stamp rnd s g u "ring" p).2 (userFilter g u) = some usr1 ∧
        usr1.MarriedTo = p ∧
        heldQty usr1.Inventory "ring" = heldQty usr.Inventory "ring" - 1 ∧
        (∀ st ∈ usr1.Inventory, st.Name = "ring" → 0 < st.Quantity) ∧
        otherStacks usr1.Inventory "ring" = otherStacks usr.Inventory "ring" ∧
        (u ≠ p →
          FindOne (Use IsOwner now stamp rnd s g u "ring" p).2 (userFilter g p) = some tgt)) := by
  obtain ⟨hlen, idx, hloop, hname, hall⟩ := useLoop_of_holdsOne_name usr.Inventory "ring" hh
  have huS : FindOne (afterStamp stamp g u s) (userFilter g u)
      = some { usr with LastUse := stamp } := by
    rw [findOne_afterStamp, if_pos ⟨rfl, rfl⟩, hu]
    rfl
  have hpu : ∃ pu, FindOne (afterStamp stamp g u s) (userFilter g p) = some pu ∧
      pu.MarriedTo = tgt.MarriedTo ∧ (u ≠ p → pu = tgt) := by
    by_cases hup : u = p
    · subst hup
      rw [hu] at ht
      injection ht with ht
      exact ⟨_, huS, by rw [← ht], fun h => absurd rfl h⟩
    · have hne2 : ¬ (g = g ∧ p = u) := fun h => hup h.2.symm
      exact ⟨tgt, by rw [findOne_afterStamp, if_neg hne2, ht], rfl, fun _ => rfl⟩
  obtain ⟨pu, hpu1, hpu2, hpu3⟩ := hpu
  rw [use_unfold IsOwner now stamp rnd s g u "ring" p usr idx hu hlen hloop hc]
  simp only [String.reduceEq, if_false, if_true]
  unfold useRing
  simp only [hpu1, hpu2]
  have hkeep : ∀ g1 u1, (FindOne (afterStamp stamp g u s) (userFilter g1 u1)).map
      (fun d => (d.MarriedTo, d.Inventory))
      = (FindOne s (userFilter g1 u1)).map (fun d => (d.MarriedTo, d.Inventory)) := by
    intro g1 u1
    unfold afterStamp
    rw [proj_updateOne]
    exact fun d => ⟨rfl, rfl, rfl⟩
  refine ⟨fun hfail => ?_, fun hok => ?_⟩
  · by_cases h1 : tgt.MarriedTo ≠ 0 ∧ tgt.MarriedTo ≠ u
    · have hb : (tgt.MarriedTo != 0 && tgt.MarriedTo != u) = true := by
        simp [h1.1, h1.2]
      simp only [hb, if_true]
      exact ⟨Or.inl trivial, hkeep⟩
    · have hb : (tgt.MarriedTo != 0 && tgt.MarriedTo != u) = false := by
        by_cases h2 : tgt.MarriedTo = 0
        · simp [h2]
        · have : tgt.MarriedTo = u := by
            by_contra h3
            exact h1 ⟨h2, h3⟩
          simp [this]
      have h3 : usr.MarriedTo ≠ 0 := by
        rcases hfail with h | h
        · exact absurd h h1
        · exact h
      have hb2 : (usr.MarriedTo != 0) = true := by simpa using h3
      simp only [hb, hb2, Bool.false_eq_true, if_false, if_true]
      exact ⟨Or.inr trivial, hkeep⟩
  · have h1 : ¬ (tgt.MarriedTo ≠ 0 ∧ tgt.MarriedTo ≠ u) := fun h => hok (Or.inl h)
    have h3 : usr.MarriedTo = 0 := by
      by_contra h
      exact hok (Or.inr h)
    have hb : (tgt.MarriedTo != 0 && tgt.MarriedTo != u) = false := by
      by_cases h2 : tgt.MarriedTo = 0
      · simp [h2]
      · have : tgt.MarriedTo = u := by
          by_contra h4
          exact h1 ⟨h2, h4⟩
        simp [this]
    have hb2 : (usr.MarriedTo != 0) = false := by simp [h3]
    simp only [hb, hb2, Bool.false_eq_true, if_false]
    obtain ⟨hq, hpos, hoth⟩ := takeAt_one_spec usr.Inventory idx "ring" hname hall
    have hfu : FindOne (UpdateOne (userFilter g u)
        (fun d => { d with Inventory := takeAt usr.Inventory idx 1, MarriedTo := p })
        (afterStamp stamp g u s)) (userFilter g u)
        = some { usr with LastUse := stamp, Inventory := takeAt usr.Inventory idx 1,
                          MarriedTo := p } := by
      rw [findOne_updateOne_key, if_pos ⟨rfl, rfl⟩, huS]
      · rfl
      · exact fun d => ⟨rfl, rfl⟩
    have hfp : u ≠ p → FindOne (UpdateOne (userFilter g u)
        (fun d => { d with Inventory := takeAt usr.Inventory idx 1, MarriedTo := p })
        (afterStamp stamp g u s)) (userFilter g p) = some tgt := by
      intro hup
      have hne2 : ¬ (g = g ∧ p = u) := fun h => hup h.2.symm
      rw [findOne_updateOne_key, if_neg hne2, hpu1, hpu3 hup]
      exact fun d => ⟨rfl, rfl⟩
    split
    · exact ⟨_, hfu, rfl, hq, hpos, hoth, hfp⟩
    · exact ⟨_, hfu, rfl, hq, hpos, hoth, hfp⟩

/-- Witness for C12 as amended: a proposal to an unmarried player. -/
theorem ring_use_witness :
    ∃ usr1,
      FindOne (Use (fun _ => false) 100000 100000 ⟨5, 0, 0⟩
        [⟨7, 1, 0, 0, 0, [⟨"ring", 1⟩]⟩, ⟨8, 1, 0, 0, 0, []⟩] 1 7 "ring" 8).2 (userFilter 1 7)
        = some usr1 ∧
      usr1.MarriedTo = 8 ∧
      heldQty usr1.Inventory "ring" = heldQty [⟨"ring", 1⟩] "ring" - 1 ∧
      (∀ st ∈ usr1.Inventory, st.Name = "ring" → 0 < st.Quantity) ∧
      otherStacks usr1.Inventory "ring" = otherStacks [⟨"ring", 1⟩] "ring" ∧
      ((7 : Int) ≠ 8 →
        FindOne (Use (fun _ => false) 100000 100000 ⟨5, 0, 0⟩
          [⟨7, 1, 0, 0, 0, [⟨"ring", 1⟩]⟩, ⟨8, 1, 0, 0, 0, []⟩] 1 7 "ring" 8).2
          (userFilter 1 8) = some ⟨8, 1, 0, 0, 0, []⟩) :=
  (ring_use (fun _ => false) 100000 100000 ⟨5, 0, 0⟩
    [⟨7, 1, 0, 0, 0, [⟨"ring", 1⟩]⟩, ⟨8, 1, 0, 0, 0, []⟩] 1 7 8
    ⟨7, 1, 0, 0, 0, [⟨"ring", 1⟩]⟩ ⟨8, 1, 0, 0, 0, []⟩ (by decide) (by decide) (by decide)
    (by decide)).2 (by decide)

/-- The two ways a `Use` by a player with a record goes: it returns before the stamp
with the store untouched, or it passes the ownership checks and the cooldown
guard. -/
theorem use_cases (IsOwner : Int → Bool) (now stamp : Int) (rnd : Draws) (s : Store)
    (g u : Int) (item : String) (p : Int) (usr : User)
    (hu : FindOne s (userFilter g u) = some usr) :
    (rejectedBeforeStamp (Use IsOwner now stamp rnd s g u item p).1 = true ∧
      (Use IsOwner now stamp rnd s g u item p).2 = s) ∨
    (usr.Inventory.length ≠ 0 ∧ cooldownPassed IsOwner now u usr ∧
      ∃ idx, useLoop item usr.Inventory 0 none = some (some idx)) := by
  have hs : IsPlaying s g u = s := IsPlaying_of_found s g u usr hu
  by_cases hlen : usr.Inventory.length = 0
  · left
    unfold Use
    simp [hs, hu, hlen, rejectedBeforeStamp]
  · cases hloop : useLoop item usr.Inventory 0 none with
    | none =>
      left
      unfold Use
      simp [hs, hu, hlen, hloop, rejectedBeforeStamp]
    | some r =>
      cases r with
      | none =>
        left
        unfold Use
        simp [hs, hu, hlen, hloop, rejectedBeforeStamp]
      | some idx =>
        by_cases hc : cooldownPassed IsOwner now u usr
        · exact Or.inr ⟨hlen, hc, idx, rfl⟩
        · left
          have hx := use_after_checks IsOwner now stamp rnd s g u item p usr idx
            (by rw [hs]; exact hu) hlen hloop
          unfold cooldownPassed at hc
          rw [if_pos (not_not.mp hc), hs] at hx
          rw [hx]
          exact ⟨rfl, rfl⟩

theorem ite_pair_snd {α β : Type} (c : Prop) [Decidable c] (a b : α) (s : β) :
    (if c then (a, s) else (b, s)).2 = s := by
  split <;> rfl

theorem ite_pair_fst {α β : Type} (c : Prop) [Decidable c] (a b : α) (s : β) :
    (if c then (a, s) else (b, s)).1 = if c then a else b := by
  split <;> rfl

/-- What a ring `Use` that returns one of its two success messages has done. -/
theorem ring_success (IsOwner : Int → Bool) (now stamp : Int) (rnd : Draws) (s : Store)
    (g u p q : Int)
    (h : (Use IsOwner now stamp rnd s g u "ring" p).1 = Outcome.officiallyMarried q ∨
      (Use IsOwner now stamp rnd s g u "ring" p).1 = Outcome.proposed q) :
    ∃ usr1 tgt1,
      FindOne (Use IsOwner now stamp rnd s g u "ring" p).2 (userFilter g u) = some usr1 ∧
      FindOne (Use IsOwner now stamp rnd s g u "ring" p).2 (userFilter g p) = some tgt1 ∧
      usr1.MarriedTo = p ∧
      (((Use IsOwner now stamp rnd s g u "ring" p).1 = Outcome.officiallyMarried p ∧
          tgt1.MarriedTo = u) ∨
        (Use IsOwner now stamp rnd s g u "ring" p).1 = Outcome.proposed p) := by
  rw [← use_IsPlaying] at h ⊢
  obtain ⟨usr, hu, _⟩ := findOne_IsPlaying s g u
  rcases use_cases IsOwner now stamp rnd (IsPlaying s g u) g u "ring" p usr hu with
    ⟨hrej, _⟩ | ⟨hlen, hc, idx, hloop⟩
  · rcases h with h | h
    · rw [h] at hrej
      simp [rejectedBeforeStamp] at hrej
    · rw [h] at hrej
      simp [rejectedBeforeStamp] at hrej
  · have huS : FindOne (afterStamp stamp g u (IsPlaying s g u)) (userFilter g u)
        = some { usr with LastUse := stamp } := by
      rw [findOne_afterStamp, if_pos ⟨rfl, rfl⟩, hu]
      rfl
    rw [use_unfold IsOwner now stamp rnd _ g u "ring" p usr idx hu hlen hloop hc] at h ⊢
    simp only [String.reduceEq, if_false, if_true] at h ⊢
    unfold useRing at h ⊢
    cases hpu : FindOne (afterStamp stamp g u (IsPlaying s g u)) (userFilter g p) with
    | none =>
      rw [hpu] at h
      simp at h
    | some pu =>
      rw [hpu] at h
      simp only [hpu] at h ⊢
      by_cases hb : (pu.MarriedTo != 0 && pu.MarriedTo != u) = true
      · simp [hb] at h
      · by_cases hb2 : (usr.MarriedTo != 0) = true
        · simp [hb, hb2] at h
        · simp only [hb, hb2, Bool.false_eq_true, if_false, ite_pair_snd, ite_pair_fst]
          have hfu : FindOne (UpdateOne (userFilter g u)
              (fun d => { d with Inventory := takeAt usr.Inventory idx 1, MarriedTo := p })
              (afterStamp stamp g u (IsPlaying s g u))) (userFilter g u)
              = some { usr with LastUse := stamp, Inventory := takeAt usr.Inventory idx 1,
                                MarriedTo := p } := by
            rw [findOne_updateOne_key, if_pos ⟨rfl, rfl⟩, huS]
            · rfl
            · exact fun d => ⟨rfl, rfl⟩
          have hm0 : usr.MarriedTo = 0 := by simpa using hb2
          by_cases hup : p = u
          · subst hup
            rw [huS] at hpu
            injection hpu with hpu
            have hpm : pu.MarriedTo = 0 := by rw [← hpu]; exact hm0
            refine ⟨_, _, hfu, hfu, rfl, ?_⟩
            simp only [hpm]
            by_cases h0 : (0 : Int) = p
            · left
              subst h0
              simp
            · right
              simp [h0]
          · have hne2 : ¬ (g = g ∧ p = u) := fun h => hup h.2
            have hfp : FindOne (UpdateOne (userFilter g u)
                (fun d => { d with Inventory := takeAt usr.Inventory idx 1, MarriedTo := p })
                (afterStamp stamp g u (IsPlaying s g u))) (userFilter g p) = some pu := by
              rw [findOne_updateOne_key, if_neg hne2, hpu]
              exact fun d => ⟨rfl, rfl⟩
            refine ⟨_, pu, hfu, hfp, rfl, ?_⟩
            by_cases hm : pu.MarriedTo = u
            · left
              simp [hm]
            · right
              simp [hm]

/-- C13, as stated, fails on the code in its second half: a player whose proposal is
pending uses a ring on the same target again; the resulting state is one-sided
(player 7 refers to 8, player 8 refers to nobody) and the outcome is "You are
already married!", not the proposal message. -/
theorem one_sided_repeat_counterexample :
    Use (fun _ => false) 100000 100000 ⟨5, 0, 0⟩
        [⟨7, 1, 0, 0, 8, [⟨"ring", 1⟩]⟩, ⟨8, 1, 0, 0, 0, []⟩] 1 7 "ring" 8
      = (Outcome.selfAlreadyMarried,
          [⟨7, 1, 0, 100000, 8, [⟨"ring", 1⟩]⟩, ⟨8, 1, 0, 0, 0, []⟩]) ∧
    Outcome.selfAlreadyMarried ≠ Outcome.proposed 8 := by
  decide

/-- C13, amended in its second half to the ring uses that return one of the two
success messages: whenever a ring `Use` returns "officially married", in the
resulting store the acting player's `MarriedTo` is the target and the target's
`MarriedTo` is the acting player; and whenever a ring `Use` returns one of its two
success messages and the resulting state is one-sided (the acting player's
`MarriedTo` is the target, the target's is not the acting player), the message is
the proposal message, not "officially married". -/
theorem marriage_symmetry (IsOwner : Int → Bool) (now stamp : Int) (rnd : Draws) (s : Store)
    (g u p : Int) :
    (∀ q, (Use IsOwner now stamp rnd s g u "ring" p).1 = Outcome.officiallyMarried q →
      ∃ usr1 tgt1,
        FindOne (Use IsOwner now stamp rnd s g u "ring" p).2 (userFilter g u) = some usr1 ∧
        FindOne (Use IsOwner now stamp rnd s g u "ring" p).2 (userFilter g p) = some tgt1 ∧
        usr1.MarriedTo = p ∧ tgt1.MarriedTo = u) ∧
    (∀ q usr1 tgt1,
      ((Use IsOwner now stamp rnd s g u "ring" p).1 = Outcome.officiallyMarried q ∨
        (Use IsOwner now stamp rnd s g u "ring" p).1 = Outcome.proposed q) →
      FindOne (Use IsOwner now stamp rnd s g u "ring" p).2 (userFilter g u) = some usr1 →
      FindOne (Use IsOwner now stamp rnd s g u "ring" p).2 (userFilter g p) = some tgt1 →
      usr1.MarriedTo = p → tgt1.MarriedTo ≠ u →
      (Use IsOwner now stamp rnd s g u "ring" p).1 = Outcome.proposed p) := by
  refine ⟨fun q h => ?_, fun q usr1 tgt1 h h1 h2 _ h4 => ?_⟩
  · obtain ⟨usr1, tgt1, h1, h2, h3, h4⟩ :=
      ring_success IsOwner now stamp rnd s g u p q (Or.inl h)
    rcases h4 with ⟨_, h5⟩ | h5
    · exact ⟨usr1, tgt1, h1, h2, h3, h5⟩
    · rw [h5] at h
      simp at h
  · obtain ⟨usr2, tgt2, _, h2b, _, h4b⟩ := ring_success IsOwner now stamp rnd s g u p q h
    rw [h2] at h2b
    injection h2b with h2b
    rcases h4b with ⟨_, h5⟩ | h5
    · rw [← h2b] at h5
      exact absurd h5 h4
    · exact h5

/-- Witness for C13 as amended: player 8 has proposed to player 7, and 7 uses a
ring on 8 (officially married, both refer to each other); player 7 uses a ring on
an unmarried player 8 (one-sided, proposal message). -/
theorem marriage_symmetry_witness :
    (∃ usr1 tgt1,
      FindOne (Use (fun _ => false) 100000 100000 ⟨5, 0, 0⟩
        [⟨7, 1, 0, 0, 0, [⟨"ring", 1⟩]⟩, ⟨8, 1, 0, 0, 7, []⟩] 1 7 "ring" 8).2
        (userFilter 1 7) = some usr1 ∧
      FindOne (Use (fun _ => false) 100000 100000 ⟨5, 0, 0⟩
        [⟨7, 1, 0, 0, 0, [⟨"ring", 1⟩]⟩, ⟨8, 1, 0, 0, 7, []⟩] 1 7 "ring" 8).2
        (userFilter 1 8) = some tgt1 ∧
      usr1.MarriedTo = 8 ∧ tgt1.MarriedTo = 7) ∧
    (Use (fun _ => false) 100000 100000 ⟨5, 0, 0⟩
      [⟨7, 1, 0, 0, 0, [⟨"ring", 1⟩]⟩, ⟨8, 1, 0, 0, 0, []⟩] 1 7 "ring" 8).1
      = Outcome.proposed 8 :=
  ⟨(marriage_symmetry (fun _ => false) 100000 100000 ⟨5, 0, 0⟩
      [⟨7, 1, 0, 0, 0, [⟨"ring", 1⟩]⟩, ⟨8, 1, 0, 0, 7, []⟩] 1 7 8).1 8 (by decide),
    (marriage_symmetry (fun _ => false) 100000 100000 ⟨5, 0, 0⟩
      [⟨7, 1, 0, 0, 0, [⟨"ring", 1⟩]⟩, ⟨8, 1, 0, 0, 0, []⟩] 1 7 8).2 8
      ⟨7, 1, 0, 100000, 8, []⟩ ⟨8, 1, 0, 0, 0, []⟩ (Or.inr (by decide)) (by decide)
      (by decide) (by decide) (by decide)⟩

/-! ## Divorce -/

theorem hasStack_of_name_at (inv : List Item) (k : Nat) (name : String)
    (h : inv[k]?.map Item.Name = some name) : hasStack inv name = true := by
  simp only [Option.map_eq_some'] at h
  obtain ⟨st, hst, hn⟩ := h
  simp only [hasStack, List.any_eq_true, beq_iff_eq]
  exact ⟨st, List.getElem?_mem hst, hn⟩

theorem shop_size_four (c : Int) :
    (Shop items 4 c).map (fun r => (r.2.1, r.2.2.map ShopItem.Price))
      = some (0, [50, 400, 1000, 2000]) := by
  have hlen : ((sortByPrice items).length : Int) = 6 := by decide
  have ht : Int.tdiv 6 4 = 1 := by decide
  have h0 : (Shop items 4 0).map (fun r => (r.2.1, r.2.2.map ShopItem.Price))
      = some (0, [50, 400, 1000, 2000]) := by decide
  have hpage : (if c < 0 then (0 : Int) else if c ≥ 1 then 1 - 1 else c) = 0 := by
    by_cases h1 : c < 0
    · simp [h1]
    · by_cases h2 : c ≥ 1
      · simp [h1, h2]
      · simp only [h1, h2, if_false]
        omega
  have hpage0 : (if (0 : Int) < 0 then (0 : Int) else if (0 : Int) ≥ 1 then 1 - 1 else 0) = 0 := by
    decide
  have hc : Shop items 4 c = Shop items 4 0 := by
    unfold Shop
    simp only [hlen, ht, hpage, hpage0]
  rw [hc, h0]

/-- C15 at the failing input: with the six catalogue items and page size 4, page
index 5 is set to page 0 and the first four items by price are shown, not the 5th
and 6th; every page index, 1 included, ends on page 0, so the shield and the car
are shown on no page. -/
theorem shop_last_page_never_shown :
    (Shop items 4 5).map (fun r => (r.2.1, r.2.2.map ShopItem.Price))
      = some (0, [50, 400, 1000, 2000]) ∧
    (sortByPrice items).map ShopItem.Price = [50, 400, 1000, 2000, 5000, 50000] ∧
    ∀ c : Int, (Shop items 4 c).map (fun r => (r.2.1, r.2.2.map ShopItem.Price))
      = some (0, [50, 400, 1000, 2000]) :=
  ⟨by decide, by decide, shop_size_four⟩

/-! ## Case of the identifier -/

theorem toLower_not_upper (c : Char) :
    ¬ (65 ≤ (Char.toLower c).toNat ∧ (Char.toLower c).toNat ≤ 90) := by
  unfold Char.toLower
  simp only
  split
  · rename_i h
    have hv : (c.toNat + 32).isValidChar := by
      left
      omega
    have : (Char.ofNat (c.toNat + 32)).toNat = c.toNat + 32 := by
      simp only [Char.ofNat, hv, dite_true]
      simp only [Char.ofNatAux, Char.toNat]
      show (BitVec.ofNatLt (c.toNat + 32) _).toNat = _
      simp
      rfl
    rw [this]
    omega
  · rename_i h
    exact fun h2 => h ⟨h2.1, h2.2⟩

theorem hasUpper_ToLower (x : String) : hasUpper (ToLower x) = false := by
  unfold hasUpper ToLower
  rw [Bool.eq_false_iff]
  intro h
  simp only [List.any_eq_true, List.mem_map, Bool.and_eq_true, decide_eq_true_eq] at h
  obtain ⟨c, ⟨c0, _, rfl⟩, h1, h2⟩ := h
  exact toLower_not_upper c0 ⟨h1, h2⟩

theorem lookupPrice_of_hasUpper (norm : String → String) (cat : List ShopItem) (item : String)
    (h : hasUpper item = true) : lookupPrice norm cat item = 0 := by
  unfold lookupPrice
  cases hf : cat.find? (fun it => ToLower (norm it.Name) == item) with
  | none => rfl
  | some it =>
    have hp := List.find?_some hf
    simp only [beq_iff_eq] at hp
    rw [← hp, hasUpper_ToLower] at h
    exact absurd h (by decide)

/-- C16, as stated, fails on the code: the identifiers "Gun" and "GUN" resolve to no
price in any of the three lookups, and `Buy`, `Sell` and `Give` report that the item
does not exist. -/
theorem upper_case_identifier_counterexample :
    buyPrice items "Gun" = 0 ∧ sellPrice items "GUN" = 0 ∧ givePrice items "Gun" = 0 ∧
    (Buy items [⟨7, 1, 2500, 0, 0, []⟩] 1 7 "Gun" 1).1 = Outcome.itemDoesNotExist ∧
    (Sell items [⟨7, 1, 0, 0, 0, [⟨"gun", 1⟩]⟩] 1 7 "GUN" 1).1 = Outcome.itemDoesNotExist ∧
    (Give items [⟨7, 1, 0, 0, 0, [⟨"gun", 1⟩]⟩, ⟨8, 1, 0, 0, 0, []⟩] 1 7 "Gun" 1 8).1
      = Outcome.itemDoesNotExist := by
  decide

/-- C16, amended: the three lookups lower-case the catalogue name and compare the
identifier as it is given.  An identifier with an upper-case letter resolves to no
catalogue item in `Buy`, `Sell` or `Give`, whatever the catalogue; the lower-case
bare identifier of each of the six items resolves to its price in `Buy`, and those
of gun, car, chocolate, ring and bow to the same price in `Sell` and `Give`. -/
theorem identifier_matched_as_given (cat : List ShopItem) (item : String)
    (h : hasUpper item = true) :
    (buyPrice cat item = 0 ∧ sellPrice cat item = 0 ∧ givePrice cat item = 0) ∧
    (buyPrice items "gun" = 2000 ∧ buyPrice items "car" = 50000 ∧
      buyPrice items "chocolate" = 50 ∧ buyPrice items "ring" = 1000 ∧
      buyPrice items "bow" = 400 ∧ buyPrice items "shield" = 5000) ∧
    (∀ id ∈ ["gun", "car", "chocolate", "ring", "bow"],
      sellPrice items id = buyPrice items id ∧ givePrice items id = buyPrice items id) :=
  ⟨⟨lookupPrice_of_hasUpper _ cat item h, lookupPrice_of_hasUpper _ cat item h,
      lookupPrice_of_hasUpper _ cat item h⟩, by decide, by decide⟩

/-- Witness for C16 as amended: the identifier "Gun". -/
theorem identifier_matched_as_given_witness :
    (buyPrice items "Gun" = 0 ∧ sellPrice items "Gun" = 0 ∧ givePrice items "Gun" = 0) ∧
    (buyPrice items "gun" = 2000 ∧ buyPrice items "car" = 50000 ∧
      buyPrice items "chocolate" = 50 ∧ buyPrice items "ring" = 1000 ∧
      buyPrice items "bow" = 400 ∧ buyPrice items "shield" = 5000) ∧
    (∀ id ∈ ["gun", "car", "chocolate", "ring", "bow"],
      sellPrice items id = buyPrice items id ∧ givePrice items id = buyPrice items id) :=
  identifier_matched_as_given items "Gun" (by decide)

/-! ## Use: the item is taken before the effect -/

theorem inv_useChocolate (rnd : Draws) (st : Store) (g u : Int) (user : User) :
    (FindOne (useChocolate rnd st g u user).2 (userFilter g u)).map User.Inventory
      = (FindOne st (userFilter g u)).map User.Inventory := by
  unfold useChocolate
  split
  · simp only
    rw [proj_updateOne]
    exact fun d => ⟨rfl, rfl, rfl⟩
  · rfl

theorem inv_useCar (st : Store) (g u p : Int) :
    (FindOne (useCar st g u p).2 (userFilter g u)).map User.Inventory
      = (FindOne st (userFilter g u)).map User.Inventory := by
  unfold useCar
  split
  · rfl
  · split
    · rfl
    · simp only
      rw [proj_updateOne, proj_updateOne]
      · exact fun d => ⟨rfl, rfl, rfl⟩
      · exact fun d => ⟨rfl, rfl, rfl⟩

theorem inv_useGun (rnd : Draws) (st : Store) (g u p : Int) (hne : u ≠ p) :
    (FindOne (useGun rnd st g u p).2 (userFilter g u)).map User.Inventory
      = (FindOne st (userFilter g u)).map User.Inventory := by
  have hne3 : ¬ (g = g ∧ u = p) := fun h => hne h.2
  unfold useGun
  split
  · rfl
  · split
    · simp only
      rw [findOne_updateOne_key, if_neg hne3]
      exact fun d => ⟨rfl, rfl⟩
    · simp only
      rw [proj_updateOne, proj_updateOne]
      · exact fun d => ⟨rfl, rfl, rfl⟩
      · exact fun d => ⟨rfl, rfl, rfl⟩

theorem inv_useBow (rnd : Draws) (st : Store) (g u p : Int) (user : User) (hne : u ≠ p) :
    (FindOne (useBow rnd st g u p user).2 (userFilter g u)).map User.Inventory
      = (FindOne st (userFilter g u)).map User.Inventory := by
  have hne3 : ¬ (g = g ∧ u = p) := fun h => hne h.2
  unfold useBow
  split
  · rfl
  · simp only
    split
    · simp only
      rw [findOne_updateOne_key, if_neg hne3, proj_updateOne]
      · exact fun d => ⟨rfl, rfl, rfl⟩
      · exact fun d => ⟨rfl, rfl⟩
    · simp only
      rw [proj_updateOne, proj_updateOne]
      · exact fun d => ⟨rfl, rfl, rfl⟩
      · exact fun d => ⟨rfl, rfl, rfl⟩

/-- C17 (the item is taken before the effect): for a `Use` of chocolate, gun or bow
that passes the ownership checks and the cooldown guard, the effect starts from a
store in which the acting player's quantity of the item is down by exactly 1, no
stack of the item is left at 0 and the other stacks are as they were, in order;
that store is the result when the target is not playing, and the acting player's
inventory in the result is that inventory for chocolate and for a target other than
the acting player.  For every `Use` of car the acting player's inventory is
unchanged. -/
theorem use_takes_item_first (IsOwner : Int → Bool) (now stamp : Int) (rnd : Draws)
    (s : Store) (g u : Int) (item : String) (p : Int) (usr : User)
    (hu : FindOne s (userFilter g u) = some usr) :
    ((item = "chocolate" ∨ item = "gun" ∨ item = "bow") →
      holdsOne usr.Inventory item → cooldownPassed IsOwner now u usr →
      ∃ idx usr2,
        FindOne (afterTake stamp g u usr.Inventory idx s) (userFilter g u) = some usr2 ∧
        heldQty usr2.Inventory item = heldQty usr.Inventory item - 1 ∧
        (∀ st ∈ usr2.Inventory, st.Name = item → 0 < st.Quantity) ∧
        otherStacks usr2.Inventory item = otherStacks usr.Inventory item ∧
        Use IsOwner now stamp rnd s g u item p =
          (if item = "chocolate" then
            useChocolate rnd (afterTake stamp g u usr.Inventory idx s) g u
              { usr with Inventory := usr2.Inventory }
          else if item = "gun" then
            useGun rnd (afterTake stamp g u usr.Inventory idx s) g u p
          else
            useBow rnd (afterTake stamp g u usr.Inventory idx s) g u p
              { usr with Inventory := usr2.Inventory }) ∧
        (item ≠ "chocolate" → FindOne s (userFilter g p) = none →
          Use IsOwner now stamp rnd s g u item p
            = (Outcome.targetNotPlaying, afterTake stamp g u usr.Inventory idx s)) ∧
        ((item = "chocolate" ∨ u ≠ p) →
          (FindOne (Use IsOwner now stamp rnd s g u item p).2 (userFilter g u)).map
            User.Inventory = some usr2.Inventory)) ∧
    (FindOne (Use IsOwner now stamp rnd s g u "car" p).2 (userFilter g u)).map User.Inventory
      = some usr.Inventory := by
  refine ⟨fun hitem hh hc => ?_, ?_⟩
  · obtain ⟨hlen, idx, hloop, hname, hall⟩ := useLoop_of_holdsOne_name usr.Inventory item hh
    obtain ⟨hq, hpos, hoth⟩ := takeAt_one_spec usr.Inventory idx item hname hall
    have hT : FindOne (afterTake stamp g u usr.Inventory idx s) (userFilter g u)
        = some { usr with LastUse := stamp, Inventory := takeAt usr.Inventory idx 1 } := by
      rw [findOne_afterTake, if_pos ⟨rfl, rfl⟩, hu]
      rfl
    have hU := use_unfold IsOwner now stamp rnd s g u item p usr idx hu hlen hloop hc
    have hEq : Use IsOwner now stamp rnd s g u item p =
        (if item = "chocolate" then
          useChocolate rnd (afterTake stamp g u usr.Inventory idx s) g u
            { usr with Inventory := takeAt usr.Inventory idx 1 }
        else if item = "gun" then
          useGun rnd (afterTake stamp g u usr.Inventory idx s) g u p
        else
          useBow rnd (afterTake stamp g u usr.Inventory idx s) g u p
            { usr with Inventory := takeAt usr.Inventory idx 1 }) := by
      rw [hU]
      rcases hitem with h | h | h
      · subst h
        simp
      · subst h
        simp
      · subst h
        simp
    refine ⟨idx, _, hT, hq, hpos, hoth, hEq, ?_, ?_⟩
    · intro hnc hnone
      have hup : u ≠ p := by
        intro h
        subst h
        rw [hu] at hnone
        exact absurd hnone (by simp)
      have hne2 : ¬ (g = g ∧ p = u) := fun h => hup h.2.symm
      have hTp : FindOne (afterTake stamp g u usr.Inventory idx s) (userFilter g p) = none := by
        rw [findOne_afterTake, if_neg hne2, hnone]
      rw [hEq, if_neg hnc]
      split
      · unfold useGun
        simp only [hTp]
      · unfold useBow
        simp only [hTp]
    · intro hcase
      rw [hEq]
      by_cases h1 : item = "chocolate"
      · rw [if_pos h1, inv_useChocolate, hT]
        rfl
      · have hup : u ≠ p := by
          rcases hcase with h | h
          · exact absurd h h1
          · exact h
        rw [if_neg h1]
        split
        · rw [inv_useGun _ _ _ _ _ hup, hT]
          rfl
        · rw [inv_useBow _ _ _ _ _ _ hup, hT]
          rfl
  · rcases use_cases IsOwner now stamp rnd s g u "car" p usr hu with
      ⟨_, hst⟩ | ⟨hlen, hc, idx, hloop⟩
    · rw [hst, hu]
      rfl
    · rw [use_unfold IsOwner now stamp rnd s g u "car" p usr idx hu hlen hloop hc]
      simp only [String.reduceEq, if_false, if_true]
      rw [inv_useCar, findOne_afterStamp, if_pos ⟨rfl, rfl⟩, hu]
      rfl

/-- Witness for C17: a gun used against a player who is not in the store. -/
theorem use_takes_item_first_witness :
    ∃ idx usr2,
      FindOne (afterTake 100000 1 7 [⟨"gun", 1⟩, ⟨"car", 1⟩] idx
        [⟨7, 1, 0, 0, 0, [⟨"gun", 1⟩, ⟨"car", 1⟩]⟩]) (userFilter 1 7) = some usr2 ∧
      heldQty usr2.Inventory "gun" = heldQty [⟨"gun", 1⟩, ⟨"car", 1⟩] "gun" - 1 ∧
      (∀ st ∈ usr2.Inventory, st.Name = "gun" → 0 < st.Quantity) ∧
      otherStacks usr2.Inventory "gun" = otherStacks [⟨"gun", 1⟩, ⟨"car", 1⟩] "gun" ∧
      Use (fun _ => false) 100000 100000 ⟨5, 0, 0⟩ [⟨7, 1, 0, 0, 0, [⟨"gun", 1⟩, ⟨"car", 1⟩]⟩]
          1 7 "gun" 9 =
        (if "gun" = "chocolate" then
          useChocolate ⟨5, 0, 0⟩ (afterTake 100000 1 7 [⟨"gun", 1⟩, ⟨"car", 1⟩] idx
            [⟨7, 1, 0, 0, 0, [⟨"gun", 1⟩, ⟨"car", 1⟩]⟩]) 1 7
            { (⟨7, 1, 0, 0, 0, [⟨"gun", 1⟩, ⟨"car", 1⟩]⟩ : User) with
              Inventory := usr2.Inventory }
        else if "gun" = "gun" then
          useGun ⟨5, 0, 0⟩ (afterTake 100000 1 7 [⟨"gun", 1⟩, ⟨"car", 1⟩] idx
            [⟨7, 1, 0, 0, 0, [⟨"gun", 1⟩, ⟨"car", 1⟩]⟩]) 1 7 9
        else
          useBow ⟨5, 0, 0⟩ (afterTake 100000 1 7 [⟨"gun", 1⟩, ⟨"car", 1⟩] idx
            [⟨7, 1, 0, 0, 0, [⟨"gun", 1⟩, ⟨"car", 1⟩]⟩]) 1 7 9
            { (⟨7, 1, 0, 0, 0, [⟨"gun", 1⟩, ⟨"car", 1⟩]⟩ : User) with
              Inventory := usr2.Inventory }) ∧
      ("gun" ≠ "chocolate" →
        FindOne [⟨7, 1, 0, 0, 0, [⟨"gun", 1⟩, ⟨"car", 1⟩]⟩] (userFilter 1 9) = none →
        Use (fun _ => false) 100000 100000 ⟨5, 0, 0⟩
            [⟨7, 1, 0, 0, 0, [⟨"gun", 1⟩, ⟨"car", 1⟩]⟩] 1 7 "gun" 9
          = (Outcome.targetNotPlaying, afterTake 100000 1 7 [⟨"gun", 1⟩, ⟨"car", 1⟩] idx
              [⟨7, 1, 0, 0, 0, [⟨"gun", 1⟩, ⟨"car", 1⟩]⟩])) ∧
      (("gun" = "chocolate" ∨ (7 : Int) ≠ 9) →
        (FindOne (Use (fun _ => false) 100000 100000 ⟨5, 0, 0⟩
          [⟨7, 1, 0, 0, 0, [⟨"gun", 1⟩, ⟨"car", 1⟩]⟩] 1 7 "gun" 9).2 (userFilter 1 7)).map
          User.Inventory = some usr2.Inventory) :=
  (use_takes_item_first (fun _ => false) 100000 100000 ⟨5, 0, 0⟩
    [⟨7, 1, 0, 0, 0, [⟨"gun", 1⟩, ⟨"car", 1⟩]⟩] 1 7 "gun" 9
    ⟨7, 1, 0, 0, 0, [⟨"gun", 1⟩, ⟨"car", 1⟩]⟩ (by decide)).1 (by decide) (by decide)
    (by decide)

/-! ## Use: the robbery branches -/

theorem truncToInt_eq_floor (q : ℚ) (hq : 0 ≤ q) : truncToInt q = ⌊q⌋ := by
  unfold truncToInt
  rw [Rat.floor_def, Int.tdiv_eq_ediv (Rat.num_nonneg.mpr hq) (by positivity)]

theorem truncToInt_bounds (bal : Int) (f : ℚ) (hb : 0 ≤ bal) (hf0 : 0 ≤ f) (hf1 : f ≤ 1) :
    0 ≤ truncToInt ((bal : ℚ) * f) ∧ truncToInt ((bal : ℚ) * f) ≤ bal := by
  have hbq : (0 : ℚ) ≤ (bal : ℚ) := by exact_mod_cast hb
  have hq : (0 : ℚ) ≤ (bal : ℚ) * f := mul_nonneg hbq hf0
  rw [truncToInt_eq_floor _ hq]
  refine ⟨Int.floor_nonneg.mpr hq, ?_⟩
  have h1 : ((⌊(bal : ℚ) * f⌋ : Int) : ℚ) ≤ (bal : ℚ) * f := Int.floor_le _
  have h2 : (bal : ℚ) * f ≤ (bal : ℚ) := by
    calc (bal : ℚ) * f ≤ (bal : ℚ) * 1 := mul_le_mul_of_nonneg_left hf1 hbq
      _ = (bal : ℚ) := mul_one _
  exact_mod_cast le_trans h1 h2

theorem hasStack_otherStacks (inv : List Item) (item name : String) (hne : name ≠ item) :
    hasStack (otherStacks inv item) name = hasStack inv name := by
  induction inv with
  | nil => rfl
  | cons it rest ih =>
    by_cases h1 : it.Name = item
    · have h2 : ¬ it.Name = name := fun h => hne (h.symm.trans h1)
      have hne2 : ¬ item = name := fun h => hne h.symm
      simp only [otherStacks, hasStack] at ih
      simp [otherStacks, hasStack, List.filter_cons, h1, hne2, ih]
    · have hb : (it.Name == item) = false := by simpa using h1
      simp only [otherStacks, hasStack] at ih
      simp [otherStacks, hasStack, List.filter_cons, hb, ih]

theorem firstIndex_of_not_hasStack (name : String) (inv : List Item)
    (h : hasStack inv name = false) : firstIndex name inv = none := by
  cases hf : firstIndex name inv with
  | none => rfl
  | some j =>
    rw [hasStack_of_name_at inv j name (firstIndex_some name inv j hf)] at h
    exact absurd h (by decide)

/-- The record of the target as the effect of gun or bow finds it: the balance and
the stacks of any other item are those of the target's record before the call. -/
theorem target_afterTake (stamp g u p : Int) (item name : String) (idx : Nat) (s : Store)
    (usr tgt : User) (hne : name ≠ item)
    (hu : FindOne s (userFilter g u) = some usr)
    (ht : FindOne s (userFilter g p) = some tgt)
    (hname : usr.Inventory[idx]?.map Item.Name = some item) :
    ∃ pu, FindOne (afterTake stamp g u usr.Inventory idx s) (userFilter g p) = some pu ∧
      pu.Balance = tgt.Balance ∧ hasStack pu.Inventory name = hasStack tgt.Inventory name ∧
      (u ≠ p → pu = tgt) := by
  by_cases hup : u = p
  · subst hup
    rw [hu] at ht
    injection ht with ht
    refine ⟨{ usr with LastUse := stamp, Inventory := takeAt usr.Inventory idx 1 }, ?_, ?_, ?_,
      fun h => absurd rfl h⟩
    · rw [findOne_afterTake, if_pos ⟨rfl, rfl⟩, hu]
      rfl
    · rw [← ht]
    · rw [← ht]
      simp only
      rw [← hasStack_otherStacks _ item name hne, otherStacks_takeAt _ _ _ _ hname,
        hasStack_otherStacks _ item name hne]
  · have hne2 : ¬ (g = g ∧ p = u) := fun h => hup h.2.symm
    exact ⟨tgt, by rw [findOne_afterTake, if_neg hne2, ht], rfl, rfl, fun _ => rfl⟩

theorem rob_store (st : Store) (g u p a : Int) (usr2 pu : User) (hup : u ≠ p)
    (h1 : FindOne st (userFilter g u) = some usr2)
    (h2 : FindOne st (userFilter g p) = some pu) :
    FindOne (UpdateOne (userFilter g u) (fun d => { d with Balance := d.Balance + a })
        (UpdateOne (userFilter g p) (fun d => { d with Balance := d.Balance + -a }) st))
        (userFilter g u) = some { usr2 with Balance := usr2.Balance + a } ∧
    FindOne (UpdateOne (userFilter g u) (fun d => { d with Balance := d.Balance + a })
        (UpdateOne (userFilter g p) (fun d => { d with Balance := d.Balance + -a }) st))
        (userFilter g p) = some { pu with Balance := pu.Balance + -a } := by
  have hne2 : ¬ (g = g ∧ p = u) := fun h => hup h.2.symm
  have hne3 : ¬ (g = g ∧ u = p) := fun h => hup h.2
  refine ⟨?_, ?_⟩
  · rw [findOne_updateOne_key, if_pos ⟨rfl, rfl⟩, findOne_updateOne_key, if_neg hne3, h1]
    · rfl
    · exact fun d => ⟨rfl, rfl⟩
    · exact fun d => ⟨rfl, rfl⟩
  · rw [findOne_updateOne_key, if_neg hne2, findOne_updateOne_key, if_pos ⟨rfl, rfl⟩, h2]
    · rfl
    · exact fun d => ⟨rfl, rfl⟩
    · exact fun d => ⟨rfl, rfl⟩

/-- C18 (robbery branches), with the drawn number `Float1` in [0, 1) an exact
rational: for a gun `Use` against a target with no shield (fraction f = Float1/2 +
1/10, in [1/10, 6/10)) and for a bow `Use` against a target with no gun (fraction
f = Float1/10 + 2/10, in [2/10, 3/10)), passing the ownership checks and the
cooldown guard, the amount in the message is trunc(f * targetBalance); the result
is the store the effect starts from with that amount taken off the target's balance
and the same amount put on the acting player's; for a target other than the acting
player the two stored balances are the old ones less and plus the amount, their sum
as before; and for a target balance at or above 0 the amount is between 0 and the
balance, so the balance does not fall below 0. -/
theorem robbery_transfer (IsOwner : Int → Bool) (now stamp : Int) (rnd : Draws) (s : Store)
    (g u p : Int) (usr tgt : User)
    (hu : FindOne s (userFilter g u) = some usr)
    (ht : FindOne s (userFilter g p) = some tgt)
    (hc : cooldownPassed IsOwner now u usr)
    (hf0 : 0 ≤ rnd.Float1) (hf1 : rnd.Float1 < 1) (aGun aBow : Int)
    (hG : aGun = truncToInt ((tgt.Balance : ℚ) * (rnd.Float1 * (1 / 2) + 1 / 10)))
    (hB : aBow = truncToInt ((tgt.Balance : ℚ) * (rnd.Float1 * (1 / 10) + 2 / 10))) :
    (holdsOne usr.Inventory "gun" → hasStack tgt.Inventory "shield" = false →
      1 / 10 ≤ rnd.Float1 * (1 / 2) + 1 / 10 ∧ rnd.Float1 * (1 / 2) + 1 / 10 < 6 / 10 ∧
      (Use IsOwner now stamp rnd s g u "gun" p).1 = Outcome.gunRobbed p aGun ∧
      (∃ idx, (Use IsOwner now stamp rnd s g u "gun" p).2 =
        UpdateOne (userFilter g u) (fun d => { d with Balance := d.Balance + aGun })
          (UpdateOne (userFilter g p) (fun d => { d with Balance := d.Balance + -aGun })
            (afterTake stamp g u usr.Inventory idx s))) ∧
      (u ≠ p → ∃ usr1 tgt1,
        FindOne (Use IsOwner now stamp rnd s g u "gun" p).2 (userFilter g u) = some usr1 ∧
        FindOne (Use IsOwner now stamp rnd s g u "gun" p).2 (userFilter g p) = some tgt1 ∧
        tgt1.Balance = tgt.Balance - aGun ∧
        usr1.Balance = usr.Balance + aGun ∧
        usr1.Balance + tgt1.Balance = usr.Balance + tgt.Balance) ∧
      (0 ≤ tgt.Balance →
        0 ≤ aGun ∧ aGun ≤ tgt.Balance ∧
        0 ≤ tgt.Balance - aGun)) ∧
    (holdsOne usr.Inventory "bow" → hasStack tgt.Inventory "gun" = false →
      2 / 10 ≤ rnd.Float1 * (1 / 10) + 2 / 10 ∧ rnd.Float1 * (1 / 10) + 2 / 10 < 3 / 10 ∧
      (Use IsOwner now stamp rnd s g u "bow" p).1 = Outcome.bowTook p aBow ∧
      (∃ idx, (Use IsOwner now stamp rnd s g u "bow" p).2 =
        UpdateOne (userFilter g u) (fun d => { d with Balance := d.Balance + aBow })
          (UpdateOne (userFilter g p) (fun d => { d with Balance := d.Balance + -aBow })
            (afterTake stamp g u usr.Inventory idx s))) ∧
      (u ≠ p → ∃ usr1 tgt1,
        FindOne (Use IsOwner now stamp rnd s g u "bow" p).2 (userFilter g u) = some usr1 ∧
        FindOne (Use IsOwner now stamp rnd s g u "bow" p).2 (userFilter g p) = some tgt1 ∧
        tgt1.Balance = tgt.Balance - aBow ∧
        usr1.Balance = usr.Balance + aBow ∧
        usr1.Balance + tgt1.Balance = usr.Balance + tgt.Balance) ∧
      (0 ≤ tgt.Balance →
        0 ≤ aBow ∧ aBow ≤ tgt.Balance ∧
        0 ≤ tgt.Balance - aBow)) := by
  refine ⟨fun hh hno => ?_, fun hh hno => ?_⟩
  · obtain ⟨hlen, idx, hloop, hname, _⟩ := useLoop_of_holdsOne_name usr.Inventory "gun" hh
    obtain ⟨pu, hpu1, hpu2, hpu3, hpu4⟩ := target_afterTake stamp g u p "gun" "shield" idx s
      usr tgt (by decide) hu ht hname
    have hfi : firstIndex "shield" pu.Inventory = none :=
      firstIndex_of_not_hasStack _ _ (by rw [hpu3, hno])
    have hT : FindOne (afterTake stamp g u usr.Inventory idx s) (userFilter g u)
        = some { usr with LastUse := stamp, Inventory := takeAt usr.Inventory idx 1 } := by
      rw [findOne_afterTake, if_pos ⟨rfl, rfl⟩, hu]
      rfl
    have hval : Use IsOwner now stamp rnd s g u "gun" p =
        (Outcome.gunRobbed p aGun,
          UpdateOne (userFilter g u) (fun d => { d with Balance := d.Balance + aGun })
            (UpdateOne (userFilter g p) (fun d => { d with Balance := d.Balance + -aGun })
              (afterTake stamp g u usr.Inventory idx s))) := by
      rw [use_unfold IsOwner now stamp rnd s g u "gun" p usr idx hu hlen hloop hc]
      simp only [String.reduceEq, if_false, if_true]
      unfold useGun
      simp only [hpu1, hfi, hpu2, hG]
    have hb : 0 ≤ tgt.Balance → 0 ≤ aGun ∧ aGun ≤ tgt.Balance := fun h0 => by
      rw [hG]
      exact truncToInt_bounds tgt.Balance (rnd.Float1 * (1 / 2) + 1 / 10) h0 (by linarith) (by linarith)
    refine ⟨by linarith, by linarith, by rw [hval], ⟨idx, by rw [hval]⟩, fun hup => ?_,
      fun h0 => ⟨(hb h0).1, (hb h0).2, by have := (hb h0).2; omega⟩⟩
    rw [hval]
    obtain ⟨r1, r2⟩ := rob_store (afterTake stamp g u usr.Inventory idx s) g u p
      aGun _ _ hup hT hpu1
    refine ⟨_, _, r1, r2, ?_, rfl, ?_⟩
    · rw [hpu4 hup]
      simp only
      ring
    · rw [hpu4 hup]
      simp only
      ring
  · obtain ⟨hlen, idx, hloop, hname, _⟩ := useLoop_of_holdsOne_name usr.Inventory "bow" hh
    obtain ⟨pu, hpu1, hpu2, hpu3, hpu4⟩ := target_afterTake stamp g u p "bow" "gun" idx s
      usr tgt (by decide) hu ht hname
    have hfi : firstIndex "gun" pu.Inventory = none :=
      firstIndex_of_not_hasStack _ _ (by rw [hpu3, hno])
    have hT : FindOne (afterTake stamp g u usr.Inventory idx s) (userFilter g u)
        = some { usr with LastUse := stamp, Inventory := takeAt usr.Inventory idx 1 } := by
      rw [findOne_afterTake, if_pos ⟨rfl, rfl⟩, hu]
      rfl
    have hval : Use IsOwner now stamp rnd s g u "bow" p =
        (Outcome.bowTook p aBow,
          UpdateOne (userFilter g u) (fun d => { d with Balance := d.Balance + aBow })
            (UpdateOne (userFilter g p) (fun d => { d with Balance := d.Balance + -aBow })
              (afterTake stamp g u usr.Inventory idx s))) := by
      rw [use_unfold IsOwner now stamp rnd s g u "bow" p usr idx hu hlen hloop hc]
      simp only [String.reduceEq, if_false, if_true]
      unfold useBow
      simp only [hpu1, hfi, hpu2, hB]
    have hb : 0 ≤ tgt.Balance → 0 ≤ aBow ∧ aBow ≤ tgt.Balance := fun h0 => by
      rw [hB]
      exact truncToInt_bounds tgt.Balance (rnd.Float1 * (1 / 10) + 2 / 10) h0 (by linarith) (by linarith)
    refine ⟨by linarith, by linarith, by rw [hval], ⟨idx, by rw [hval]⟩, fun hup => ?_,
      fun h0 => ⟨(hb h0).1, (hb h0).2, by have := (hb h0).2; omega⟩⟩
    rw [hval]
    obtain ⟨r1, r2⟩ := rob_store (afterTake stamp g u usr.Inventory idx s) g u p
      aBow _ _ hup hT hpu1
    refine ⟨_, _, r1, r2, ?_, rfl, ?_⟩
    · rw [hpu4 hup]
      simp only
      ring
    · rw [hpu4 hup]
      simp only
      ring

/-- Witness for C18: a gun used with the draw one half against an unshielded player holding
1000 takes 350. -/
theorem robbery_transfer_witness :
    (Use (fun _ => false) 100000 100001 ⟨5, 1 / 2, 0⟩
      [⟨7, 1, 0, 0, 0, [⟨"gun", 1⟩]⟩, ⟨8, 1, 1000, 0, 0, []⟩] 1 7 "gun" 8).1
      = Outcome.gunRobbed 8 350 ∧
    (∃ usr1 tgt1,
      FindOne (Use (fun _ => false) 100000 100001 ⟨5, 1 / 2, 0⟩
        [⟨7, 1, 0, 0, 0, [⟨"gun", 1⟩]⟩, ⟨8, 1, 1000, 0, 0, []⟩] 1 7 "gun" 8).2
        (userFilter 1 7) = some usr1 ∧
      FindOne (Use (fun _ => false) 100000 100001 ⟨5, 1 / 2, 0⟩
        [⟨7, 1, 0, 0, 0, [⟨"gun", 1⟩]⟩, ⟨8, 1, 1000, 0, 0, []⟩] 1 7 "gun" 8).2
        (userFilter 1 8) = some tgt1 ∧
      tgt1.Balance = 1000 - 350 ∧
      usr1.Balance = 0 + 350 ∧
      usr1.Balance + tgt1.Balance = 0 + 1000) ∧
    ((0 : Int) ≤ 350 ∧ (350 : Int) ≤ 1000 ∧ (0 : Int) ≤ 1000 - 350) :=
  have h := (robbery_transfer (fun _ => false) 100000 100001 ⟨5, 1 / 2, 0⟩
    [⟨7, 1, 0, 0, 0, [⟨"gun", 1⟩]⟩, ⟨8, 1, 1000, 0, 0, []⟩] 1 7 8
    ⟨7, 1, 0, 0, 0, [⟨"gun", 1⟩]⟩ ⟨8, 1, 1000, 0, 0, []⟩ (by decide) (by decide) (by decide)
    (by norm_num) (by norm_num) 350 250 (by decide!) (by decide!)).1 (by decide) (by decide)
  ⟨h.2.2.1, h.2.2.2.2.1 (by decide), h.2.2.2.2.2 (by decide)⟩

/-! ## Use: bow against a target holding a gun -/

/-- C20, as stated, fails on the code for amounts below zero, which no check rejects,
and for amounts whose product with the price leaves the 64-bit range: buying -1 gun
with balance 0 succeeds and leaves balance 2000; selling -1 gun out of a one-gun
stack succeeds and leaves balance -1000; buying 184467440737096 cars with balance 0
succeeds and leaves balance 9223372036854751616; selling 368934881474192 cars out of
a stack of that size leaves balance -9223372036854751616. -/
theorem negative_amount_balance_counterexample :
    Buy items [⟨7, 1, 0, 0, 0, []⟩] 1 7 "gun" (-1)
      = (Outcome.bought (-1) "gun" (-2000), [⟨7, 1, 2000, 0, 0, [⟨"gun", -1⟩]⟩]) ∧
    Sell items [⟨7, 1, 0, 0, 0, [⟨"gun", 1⟩]⟩] 1 7 "gun" (-1)
      = (Outcome.sold (-1) "gun" (-1000), [⟨7, 1, -1000, 0, 0, [⟨"gun", 2⟩]⟩]) ∧
    ((0 : Int) ≤ 184467440737096 ∧
      Buy items [⟨7, 1, 0, 0, 0, []⟩] 1 7 "car" 184467440737096
        = (Outcome.bought 184467440737096 "car" (-9223372036854751616),
            [⟨7, 1, 9223372036854751616, 0, 0, [⟨"car", 184467440737096⟩]⟩]) ∧
      ¬ ((9223372036854751616 : Int) ≤ 0)) ∧
    ((0 : Int) ≤ 368934881474192 ∧
      Sell items [⟨7, 1, 0, 0, 0, [⟨"car", 368934881474192⟩]⟩] 1 7 "car" 368934881474192
        = (Outcome.sold 368934881474192 "car" (-9223372036854751616),
            [⟨7, 1, -9223372036854751616, 0, 0, [⟨"car", 0⟩]⟩]) ∧
      ¬ ((0 : Int) ≤ -9223372036854751616)) := by
  decide

/-- C20, amended to the amounts that are not below zero and to the products within
the 64-bit range: for every amount >= 0, a successful `Buy` from the catalogue for
which price times amount lies strictly between -2^63 and 2^63 leaves the buyer's
balance no higher than it was, and a successful `Sell` for which floor(P/2) times
the amount lies strictly between -2^63 and 2^63 leaves the seller's balance no
lower than it was. -/
theorem nonneg_amount_balance_direction (s : Store) (g u : Int) (item : String)
    (amount : Int) (usr : User)
    (hu : FindOne s (userFilter g u) = some usr)
    (hamt : 0 ≤ amount) :
    (∀ a i c, (Buy items s g u item amount).1 = Outcome.bought a i c →
      fits64 (buyPrice items item * amount) →
      ∃ usr1, FindOne (Buy items s g u item amount).2 (userFilter g u) = some usr1 ∧
        usr1.Balance ≤ usr.Balance) ∧
    (∀ a i t, (Sell items s g u item amount).1 = Outcome.sold a i t →
      fits64 (sellPrice items item / 2 * amount) →
      ∃ usr1, FindOne (Sell items s g u item amount).2 (userFilter g u) = some usr1 ∧
        usr.Balance ≤ usr1.Balance) := by
  have hpos : ∀ it ∈ items, 0 < it.Price := by decide
  have hbp : 0 ≤ buyPrice items item := lookupPrice_nonneg _ items item hpos
  have hnn : 0 ≤ sellPrice items item := lookupPrice_nonneg _ items item hpos
  have hsp : 0 ≤ Int.tdiv (sellPrice items item) 2 := Int.tdiv_nonneg hnn (by decide)
  have hcost : 0 ≤ buyPrice items item * amount := mul_nonneg hbp hamt
  have hcred : 0 ≤ Int.tdiv (sellPrice items item) 2 * amount := mul_nonneg hsp hamt
  refine ⟨fun a i c hb hfit => ?_, fun a i t hs hfit => ?_⟩
  · have hw : wrap64 (-buyPrice items item * amount) = -(buyPrice items item * amount) := by
      rw [neg_mul, wrap64_neg_of_fits _ hfit]
    rw [Buy, IsPlaying_of_found s g u usr hu] at hb ⊢
    simp only [hu] at hb ⊢
    by_cases h0 : (buyPrice items item == 0) = true
    · simp [h0] at hb
    by_cases h1 : usr.Balance < wrap64 (buyPrice items item * amount)
    · simp [h0, h1] at hb
    simp only [h0, h1, Bool.false_eq_true, if_false]
    rw [findOne_updateOne, findOne_updateOne]
    · simp only [and_self, if_true, hu, Option.map_some']
      by_cases hst : hasStack usr.Inventory item = true
      · simp only [hst, if_true, hasStack_incFirst, Bool.not_true, Bool.false_eq_true, if_false]
        refine ⟨_, rfl, ?_⟩
        simp only
        rw [hw]
        linarith
      · simp only [hst, if_false, Bool.not_false, if_true, Bool.false_eq_true]
        refine ⟨_, rfl, ?_⟩
        simp only
        rw [hw]
        linarith
    · exact fun d => ⟨rfl, rfl⟩
    · exact fun d => ⟨rfl, rfl⟩
  · have hw : wrap64 (Int.tdiv (sellPrice items item) 2 * amount)
        = Int.tdiv (sellPrice items item) 2 * amount := by
      rw [tdiv_two_eq (sellPrice items item) hnn]
      exact wrap64_of_fits _ hfit
    rw [Sell, IsPlaying_of_found s g u usr hu] at hs ⊢
    simp only [hu] at hs ⊢
    by_cases h0 : (usr.Inventory.length == 0) = true
    · simp [h0] at hs
    by_cases h1 : (sellPrice items item == 0) = true
    · simp [h0, h1] at hs
    by_cases h2 : (match usr.Inventory.find? (fun s => ToLower s.Name == item) with
        | some s => s.Quantity
        | none => 0) < amount
    · simp [h0, h1, h2] at hs
    simp only [h0, h1, h2, Bool.false_eq_true, if_false]
    rw [findOne_updateOne]
    · simp only [and_self, if_true, hu, Option.map_some']
      by_cases hst : hasStack usr.Inventory item = true
      · simp only [hst, if_true]
        refine ⟨_, rfl, ?_⟩
        simp only
        rw [hw]
        linarith
      · simp only [hst, if_false, Bool.false_eq_true]
        exact ⟨_, rfl, le_refl _⟩
    · exact fun d => ⟨rfl, rfl⟩

/-- Witness for C20 as amended: one gun bought with balance 2500, and one gun sold. -/
theorem nonneg_amount_balance_direction_witness :
    (∃ usr1, FindOne (Buy items [⟨7, 1, 2500, 0, 0, [⟨"gun", 1⟩]⟩] 1 7 "gun" 1).2
        (userFilter 1 7) = some usr1 ∧ usr1.Balance ≤ 2500) ∧
    (∃ usr1, FindOne (Sell items [⟨7, 1, 2500, 0, 0, [⟨"gun", 1⟩]⟩] 1 7 "gun" 1).2
        (userFilter 1 7) = some usr1 ∧ 2500 ≤ usr1.Balance) :=
  have h := nonneg_amount_balance_direction [⟨7, 1, 2500, 0, 0, [⟨"gun", 1⟩]⟩] 1 7 "gun" 1
    ⟨7, 1, 2500, 0, 0, [⟨"gun", 1⟩]⟩ (by decide) (by decide)
  ⟨h.1 1 "gun" 2000 (by decide) (by decide), h.2 1 "gun" 1000 (by decide) (by decide)⟩

/-! ## Shop: the page window -/

theorem insertByPrice_length (x : ShopItem) (l : List ShopItem) :
    (insertByPrice x l).length = l.length + 1 := by
  induction l with
  | nil => rfl
  | cons y ys ih =>
    unfold insertByPrice
    split
    · rfl
    · simp [ih]

theorem sortByPrice_length (l : List ShopItem) : (sortByPrice l).length = l.length := by
  induction l with
  | nil => rfl
  | cons x xs ih => simp [sortByPrice, insertByPrice_length, ih]

/-- The embedding of `Shop` in terms of the page index and the bounds it computes. -/
theorem shop_eq (cat : List ShopItem) (pageSize currentPage : Int) :
    Shop cat pageSize currentPage =
      if pageSize == 0 then none
      else if 0 ≤ (pageBounds (sortByPrice cat).length pageSize
            (clampedPage (sortByPrice cat).length pageSize currentPage)).1 ∧
          (pageBounds (sortByPrice cat).length pageSize
            (clampedPage (sortByPrice cat).length pageSize currentPage)).1 ≤
          (pageBounds (sortByPrice cat).length pageSize
            (clampedPage (sortByPrice cat).length pageSize currentPage)).2 ∧
          (pageBounds (sortByPrice cat).length pageSize
            (clampedPage (sortByPrice cat).length pageSize currentPage)).2 ≤
          ((sortByPrice cat).length : Int) then
        some (sortByPrice cat, clampedPage (sortByPrice cat).length pageSize currentPage,
          ((sortByPrice cat).drop (pageBounds (sortByPrice cat).length pageSize
              (clampedPage (sortByPrice cat).length pageSize currentPage)).1.toNat).take
            ((pageBounds (sortByPrice cat).length pageSize
                (clampedPage (sortByPrice cat).length pageSize currentPage)).2 -
              (pageBounds (sortByPrice cat).length pageSize
                (clampedPage (sortByPrice cat).length pageSize currentPage)).1).toNat)
      else none := rfl

theorem clampedPage_above_length (len pageSize currentPage : Int) (h0 : 0 ≤ len)
    (h : len < pageSize) (hc : 0 ≤ currentPage) : clampedPage len pageSize currentPage = -1 := by
  have ht : Int.tdiv len pageSize = 0 := by
    rw [Int.tdiv_eq_ediv h0 (by omega)]
    exact Int.ediv_eq_zero_of_lt h0 h
  unfold clampedPage
  rw [ht, if_neg (by omega), if_pos (by omega)]
  rfl

theorem clampedPage_bounds (len pageSize currentPage : Int) (h0 : 0 ≤ len)
    (hp : 1 ≤ pageSize) (h : pageSize ≤ len ∨ currentPage < 0) :
    0 ≤ clampedPage len pageSize currentPage ∧
    (clampedPage len pageSize currentPage = 0 ∨
      (clampedPage len pageSize currentPage + 1) * pageSize ≤ len) := by
  have ht : Int.tdiv len pageSize = len / pageSize := Int.tdiv_eq_ediv h0 (by omega)
  have hq : len / pageSize * pageSize ≤ len := Int.ediv_mul_le len (by omega)
  unfold clampedPage
  rw [ht]
  by_cases h1 : currentPage < 0
  · rw [if_pos h1]
    exact ⟨le_refl _, Or.inl rfl⟩
  · have hle : pageSize ≤ len := by
      rcases h with h | h
      · exact h
      · exact absurd h h1
    have hq1 : 1 ≤ len / pageSize := Int.le_ediv_of_mul_le (by omega) (by omega)
    rw [if_neg h1]
    by_cases h2 : currentPage ≥ len / pageSize
    · rw [if_pos h2]
      refine ⟨by omega, Or.inr ?_⟩
      have : len / pageSize - 1 + 1 = len / pageSize := by omega
      rw [this]
      exact hq
    · rw [if_neg h2]
      refine ⟨by omega, Or.inr ?_⟩
      have h3 : currentPage + 1 ≤ len / pageSize := by omega
      have h4 : (currentPage + 1) * pageSize ≤ len / pageSize * pageSize :=
        Int.mul_le_mul_of_nonneg_right h3 (by omega)
      omega

theorem pageBounds_in_range (len pageSize page : Int) (h0 : 0 ≤ len) (hp : 1 ≤ pageSize)
    (hpg : 0 ≤ page) (h : page = 0 ∨ (page + 1) * pageSize ≤ len) :
    0 ≤ (pageBounds len pageSize page).1 ∧
    (pageBounds len pageSize page).1 ≤ (pageBounds len pageSize page).2 ∧
    (pageBounds len pageSize page).2 ≤ len := by
  have hs : 0 ≤ page * pageSize := Int.mul_nonneg hpg (by omega)
  have hexp : (page + 1) * pageSize = page * pageSize + pageSize := by ring
  unfold pageBounds
  simp only
  rcases h with h | h
  · subst h
    simp only [zero_mul, zero_add]
    split <;> omega
  · rw [hexp] at h
    split <;> omega

/-- C21 at the failing input: with the six catalogue items, page size 7 and page
index 0, the bounds check sets the page index to 6/7 - 1 = -1, so start is -7 and
end is 0, and the slice `items[start:end]` is out of range.  The same happens for
every catalogue, every page size above the number of items and every page index at
or above 0; for every page size from 1 up to the number of items, and for every
page index below 0, the page index set is at or above 0, the bounds satisfy
0 <= start <= end <= len(items) and the page is returned. -/
theorem shop_page_size_above_length :
    clampedPage 6 7 0 = -1 ∧ pageBounds 6 7 (-1) = (-7, 0) ∧ Shop items 7 0 = none ∧
    (∀ (cat : List ShopItem) (pageSize currentPage : Int),
      (cat.length : Int) < pageSize → 0 ≤ currentPage →
        clampedPage cat.length pageSize currentPage = -1 ∧
        pageBounds cat.length pageSize (-1) = (-pageSize, 0) ∧
        Shop cat pageSize currentPage = none) ∧
    (∀ (cat : List ShopItem) (pageSize currentPage : Int),
      1 ≤ pageSize → (pageSize ≤ (cat.length : Int) ∨ currentPage < 0) →
        0 ≤ clampedPage cat.length pageSize currentPage ∧
        0 ≤ (pageBounds cat.length pageSize
          (clampedPage cat.length pageSize currentPage)).1 ∧
        (pageBounds cat.length pageSize (clampedPage cat.length pageSize currentPage)).1 ≤
          (pageBounds cat.length pageSize (clampedPage cat.length pageSize currentPage)).2 ∧
        (pageBounds cat.length pageSize (clampedPage cat.length pageSize currentPage)).2 ≤
          (cat.length : Int) ∧
        (Shop cat pageSize currentPage).isSome = true) := by
  refine ⟨by decide, by decide, by decide, fun cat pageSize currentPage h hc => ?_,
    fun cat pageSize currentPage hp h => ?_⟩
  · have h0 : (0 : Int) ≤ (cat.length : Int) := Int.ofNat_nonneg _
    have hcl := clampedPage_above_length cat.length pageSize currentPage h0 h hc
    have hpb : pageBounds cat.length pageSize (-1) = (-pageSize, 0) := by
      unfold pageBounds
      simp only [neg_one_mul, neg_add_cancel]
      rw [if_neg (by omega)]
    refine ⟨hcl, hpb, ?_⟩
    have hne : (pageSize == 0) = false := by
      rw [beq_eq_false_iff_ne]
      omega
    rw [shop_eq, sortByPrice_length, hcl, hpb, hne]
    simp only [Bool.false_eq_true, if_false]
    rw [if_neg (by omega)]
  · have h0 : (0 : Int) ≤ (cat.length : Int) := Int.ofNat_nonneg _
    obtain ⟨c1, c2⟩ := clampedPage_bounds cat.length pageSize currentPage h0 hp h
    obtain ⟨b1, b2, b3⟩ := pageBounds_in_range cat.length pageSize _ h0 hp c1 c2
    refine ⟨c1, b1, b2, b3, ?_⟩
    have hne : (pageSize == 0) = false := by
      rw [beq_eq_false_iff_ne]
      omega
    rw [shop_eq, sortByPrice_length, hne]
    simp only [Bool.false_eq_true, if_false]
    rw [if_pos ⟨b1, b2, b3⟩]
    rfl

/-! ## Divorce: filed or official -/

theorem divorce_outcome (s : Store) (g u p : Int) (usr tgt : User)
    (hu : FindOne s (userFilter g u) = some usr)
    (ht : FindOne s (userFilter g p) = some tgt)
    (h0 : usr.MarriedTo ≠ 0) (h1 : usr.MarriedTo = p) :
    (Divorce s g u p).1 =
      if tgt.MarriedTo = 0 then Outcome.officiallyDivorced p else Outcome.filedForDivorce p := by
  have hs : IsPlaying s g u = s := IsPlaying_of_found s g u usr hu
  have hb : (usr.MarriedTo == 0) = false := by simpa using h0
  have hb2 : (usr.MarriedTo != p) = false := by simp [h1]
  unfold Divorce
  simp only [hs, hu, ht, hb, hb2, Bool.false_eq_true, if_false, ite_pair_fst]
  by_cases hz : tgt.MarriedTo = 0
  · simp [hz]
  · simp [hz]

/-- C22 at the failing input: players 7 and 8 are married to each other; 8 divorces
7 (filed) and proposes to 9 with the ring that came back; 7 then divorces 8.  The
target's `MarriedTo` is 9, not the acting player, and the outcome is "filed for
divorce", not "officially divorced".  For every `Divorce` that goes through, the
outcome is "officially divorced" when the target's `MarriedTo` is 0 and "filed for
divorce" otherwise, whoever the target refers to. -/
theorem divorce_filed_against_remarried_target :
    Divorce [⟨7, 1, 0, 0, 8, []⟩, ⟨8, 1, 0, 0, 7, []⟩, ⟨9, 1, 0, 0, 0, []⟩] 1 8 7
      = (Outcome.filedForDivorce 7,
          [⟨7, 1, 0, 0, 8, []⟩, ⟨8, 1, 0, 0, 0, [⟨"ring", 1⟩]⟩, ⟨9, 1, 0, 0, 0, []⟩]) ∧
    Use (fun _ => false) 100000 100000 ⟨5, 0, 0⟩
        [⟨7, 1, 0, 0, 8, []⟩, ⟨8, 1, 0, 0, 0, [⟨"ring", 1⟩]⟩, ⟨9, 1, 0, 0, 0, []⟩] 1 8 "ring" 9
      = (Outcome.proposed 9,
          [⟨7, 1, 0, 0, 8, []⟩, ⟨8, 1, 0, 100000, 9, []⟩, ⟨9, 1, 0, 0, 0, []⟩]) ∧
    Divorce [⟨7, 1, 0, 0, 8, []⟩, ⟨8, 1, 0, 100000, 9, []⟩, ⟨9, 1, 0, 0, 0, []⟩] 1 7 8
      = (Outcome.filedForDivorce 8,
          [⟨7, 1, 0, 0, 0, [⟨"ring", 1⟩]⟩, ⟨8, 1, 0, 100000, 9, []⟩, ⟨9, 1, 0, 0, 0, []⟩]) ∧
    (FindOne [⟨7, 1, 0, 0, 8, []⟩, ⟨8, 1, 0, 100000, 9, []⟩, ⟨9, 1, 0, 0, 0, []⟩]
      (userFilter 1 8)).map User.MarriedTo = some 9 ∧
    Outcome.filedForDivorce 8 ≠ Outcome.officiallyDivorced 8 ∧
    (∀ (s : Store) (g u p : Int) (usr tgt : User),
      FindOne s (userFilter g u) = some usr → FindOne s (userFilter g p) = some tgt →
      usr.MarriedTo ≠ 0 → usr.MarriedTo = p →
        (Divorce s g u p).1 =
          if tgt.MarriedTo = 0 then Outcome.officiallyDivorced p
          else Outcome.filedForDivorce p) :=
  ⟨by decide, by decide, by decide, by decide, by decide, divorce_outcome⟩

end MaryBot
